import Mathlib

set_option maxHeartbeats 1000000

/-!
Verification of the cluster-to-particle grouping and labeling engine of the
repository (mlreco/iotools/parsers.py and analysis/classes/Particle.py),
as a shallow embedding: particle records become a structure, voxel tensors
become lists of (coordinate, value) pairs, numpy operations become list
functions, and fallible code returns Option.
-/

/-- A 3D integer voxel coordinate. -/
abbrev Voxel := ℤ × ℤ × ℤ

/-- One particle cluster: the list of (coordinate, value) pairs of its voxels,
in the order stored by the cluster tensor. -/
abbrev Cluster := List (Voxel × ℚ)

/-- The fields of one larcv particle record used by the parsers: id,
declared group id, semantic shape, creation process string, parent pdg code
and the time of the first step. -/
structure Particle3D where
  pid : ℕ
  group_id : ℕ
  shape : ℕ
  creation_process : String
  parent_pdg_code : ℤ
  first_step_t : ℚ
deriving DecidableEq

instance : Inhabited Particle3D := ⟨⟨0, 0, 0, "", 0, 0⟩⟩

/-- Does the character list s start with pat? -/
def startsWithL : List Char → List Char → Bool
  | _, [] => true
  | [], _ :: _ => false
  | c :: cs, p :: ps => c == p && startsWithL cs ps

/-- Does the character list s contain pat as a contiguous sublist? -/
def containsL : List Char → List Char → Bool
  | _, [] => true
  | [], _ :: _ => false
  | c :: cs, p :: ps => startsWithL (c :: cs) (p :: ps) || containsL cs (p :: ps)

/-- Python substring containment: pat in s. -/
def strContains (s pat : String) : Bool := containsL s.toList pat.toList

/-- The process/PDG veto condition of parse_cluster3d_full:
'Inelastic' in process or 'Capture' in process or abs(parent_pdg_code) == 13. -/
def vetoProcess (p : Particle3D) : Bool :=
  strContains p.creation_process "Inelastic" ||
    strContains p.creation_process "Capture" || (p.parent_pdg_code.natAbs == 13)

/-- np.argmin on a list of rationals: the index of the first occurrence of
the minimum (0 for the empty list, where numpy raises instead). -/
def npArgminQ : List ℚ → ℕ
  | [] => 0
  | [_] => 0
  | x :: y :: l =>
    let j := npArgminQ (y :: l)
    if (y :: l).getD j 0 < x then j + 1 else 0

/-- np.argmax on a list of rationals: the index of the first occurrence of
the maximum. -/
def npArgmax : List ℚ → ℕ
  | [] => 0
  | [_] => 0
  | x :: y :: l =>
    let j := npArgmax (y :: l)
    if x < (y :: l).getD j 0 then j + 1 else 0

/-- np.unique on a flat integer array: the sorted list of distinct values. -/
def sortedUnique (l : List ℕ) : List ℕ :=
  List.insertionSort (fun a b => a ≤ b) l.dedup

/-- The mutable state of the group-resolution loop of parse_cluster3d_full:
the working copy of the group_ids array and the fresh-id counter new_group. -/
structure ResState where
  gids : List ℕ
  newGroup : ℕ
deriving DecidableEq

/-- group_ids[idxs] = new_group; new_group += 1, where idxs are the positions
currently holding gid. -/
def demote (st : ResState) (gid : ℕ) : ResState :=
  ⟨st.gids.map (fun x => if x = gid then st.newGroup else x), st.newGroup + 1⟩

/-- One iteration of the loop over np.unique(group_ids) in
parse_cluster3d_full: the shape gate, the process/PDG veto, the
empty-primary veto and the time-ordering veto, in source order. -/
def resolveStep (parts : List Particle3D) (clusters : List Cluster)
    (st : ResState) (gid : ℕ) : Option ResState :=
  match parts[gid]? with
  | none => none
  | some prim =>
    if prim.shape ≠ 0 ∧ prim.shape ≠ 4 then some st
    else if vetoProcess prim then some (demote st gid)
    else
      match clusters[gid]? with
      | none => none
      | some cl =>
        if cl.length = 0 then some (demote st gid)
        else
          let idxs := (List.range st.gids.length).filter
            (fun j => decide (st.gids.getD j 0 = gid))
          let times := idxs.map (fun j => (parts.getD j default).first_step_t)
          if times = [] then none
          else if idxs.getD (npArgminQ times) 0 ≠ gid then some (demote st gid)
          else some st

/-- The declared group id array, read off the particle records. -/
def initGids (parts : List Particle3D) : List ℕ :=
  parts.map (fun p => p.group_id)

/-- The whole group-resolution block of parse_cluster3d_full: fold the loop
body over np.unique(group_ids), starting the fresh-id counter at
num_clusters + 1. -/
def resolveGroups (parts : List Particle3D) (clusters : List Cluster) :
    Option ResState :=
  (sortedUnique (initGids parts)).foldlM (resolveStep parts clusters)
    ⟨initGids parts, clusters.length + 1⟩

/-- The pure demotion decision for one declared group id, computed from the
original (unmutated) group id array; it agrees with what the loop does at
the moment gid is processed. -/
def groupDemoted (parts : List Particle3D) (clusters : List Cluster)
    (g : ℕ) : Bool :=
  match parts[g]? with
  | none => false
  | some prim =>
    if prim.shape ≠ 0 ∧ prim.shape ≠ 4 then false
    else if vetoProcess prim then true
    else
      match clusters[g]? with
      | none => false
      | some cl =>
        if cl.length = 0 then true
        else
          let ig := initGids parts
          let idxs := (List.range ig.length).filter
            (fun j => decide (ig.getD j 0 = g))
          let times := idxs.map (fun j => (parts.getD j default).first_step_t)
          decide (idxs.getD (npArgminQ times) 0 ≠ g)

/-- The demoted declared group ids, in increasing order. -/
def demotedList (parts : List Particle3D) (clusters : List Cluster) : List ℕ :=
  (sortedUnique (initGids parts)).filter (fun g => groupDemoted parts clusters g)

/-- The number of demoted groups processed strictly before g. -/
def countBeforeUniq (parts : List Particle3D) (clusters : List Cluster)
    (g : ℕ) : ℕ :=
  (((sortedUnique (initGids parts)).takeWhile (fun x => decide (x ≠ g))).filter
    (fun x => groupDemoted parts clusters x)).length

/-- The freshly minted group id a demoted group g receives. -/
def freshId (parts : List Particle3D) (clusters : List Cluster) (g : ℕ) : ℕ :=
  clusters.length + 1 + countBeforeUniq parts clusters g

/-- The resolved group id of a particle whose declared group id is g. -/
def resolvedGid (parts : List Particle3D) (clusters : List Cluster) (g : ℕ) : ℕ :=
  if groupDemoted parts clusters g then freshId parts clusters g else g

/-- Well-formedness of one event's input: clusters and particle records are
parallel (dense 1:1 indexing), and every declared group id is a valid
particle index. -/
def WF (parts : List Particle3D) (clusters : List Cluster) : Prop :=
  parts.length = clusters.length ∧ ∀ p ∈ parts, p.group_id < parts.length

instance (parts : List Particle3D) (clusters : List Cluster) :
    Decidable (WF parts clusters) := by
  unfold WF; infer_instance

/-- One output row's feature columns of parse_cluster3d_full:
voxel value, cluster id, group id and semantic type. -/
structure FeatRow where
  value : ℚ
  cluster_id : ℕ
  group_id : ℕ
  sem_type : ℚ
deriving DecidableEq

instance : Inhabited FeatRow := ⟨⟨0, 0, 0, 0⟩⟩

/-- The output loop body of parse_cluster3d_full for cluster i: skip empty
clusters, assert i == particles_v[i].id(), and emit one row per voxel. -/
def clusterRows (parts : List Particle3D) (gids : List ℕ) (i : ℕ)
    (cl : Cluster) : Option (List (Voxel × FeatRow)) :=
  if cl.length = 0 then some []
  else
    match parts[i]?, gids[i]? with
    | some p, some g =>
      if p.pid = i then
        some (cl.map (fun vv => (vv.1, FeatRow.mk vv.2 p.pid g (p.shape : ℚ))))
      else none
    | _, _ => none

/-- Thread Option through a list map (the semantics of mapping a fallible
body over a loop, aborting at the first failure). -/
def optMap {α β : Type} (f : α → Option β) : List α → Option (List β)
  | [] => some []
  | a :: l => do
    let b ← f a
    let bs ← optMap f l
    some (b :: bs)

/-- parse_cluster3d_full: run the group resolution, then emit per-voxel rows;
np.concatenate of an empty list (an event with no nonempty cluster) raises,
modelled as none. -/
def parse_cluster3d_full (parts : List Particle3D) (clusters : List Cluster) :
    Option (List (Voxel × FeatRow)) := do
  let st ← resolveGroups parts clusters
  let rowss ← optMap (fun ic => clusterRows parts st.gids ic.1 ic.2) clusters.enum
  let rows := rowss.flatten
  if rows.length = 0 then none else some rows

/-- The order np.lexsort(voxels.T) sorts rows by: the last coordinate is the
primary key. -/
def lexLt (a b : Voxel) : Prop :=
  a.2.2 < b.2.2 ∨ (a.2.2 = b.2.2 ∧ (a.2.1 < b.2.1 ∨ (a.2.1 = b.2.1 ∧ a.1 < b.1)))

/-- Reflexive closure of lexLt. -/
def lexLe (a b : Voxel) : Prop := lexLt a b ∨ a = b

instance : DecidableRel lexLt := fun a b => by unfold lexLt; infer_instance

instance : DecidableRel lexLe := fun a b => by unfold lexLe; infer_instance

instance : IsTrans Voxel lexLt := by
  constructor
  intro a b c hab hbc
  obtain ⟨a1, a2, a3⟩ := a
  obtain ⟨b1, b2, b3⟩ := b
  obtain ⟨c1, c2, c3⟩ := c
  simp only [lexLt] at *
  omega

instance : IsTrans Voxel lexLe := by
  constructor
  intro a b c hab hbc
  obtain ⟨a1, a2, a3⟩ := a
  obtain ⟨b1, b2, b3⟩ := b
  obtain ⟨c1, c2, c3⟩ := c
  simp only [lexLe, lexLt, Prod.mk.injEq] at *
  omega

instance : IsTotal Voxel lexLe := by
  constructor
  intro a b
  obtain ⟨a1, a2, a3⟩ := a
  obtain ⟨b1, b2, b3⟩ := b
  simp only [lexLe, lexLt, Prod.mk.injEq]
  omega

instance : IsAntisymm Voxel lexLt := by
  constructor
  intro a b hab hba
  obtain ⟨a1, a2, a3⟩ := a
  obtain ⟨b1, b2, b3⟩ := b
  simp only [lexLt, Prod.mk.injEq] at *
  omega

instance : IsAntisymm Voxel lexLe := by
  constructor
  intro a b hab hba
  obtain ⟨a1, a2, a3⟩ := a
  obtain ⟨b1, b2, b3⟩ := b
  simp only [lexLe, lexLt, Prod.mk.injEq] at *
  omega

/-- Comparison of (coordinate, data) rows by coordinate only, as done when a
lexsort permutation is applied to voxels and data alike. -/
def pairLe {α : Type} (a b : Voxel × α) : Prop := lexLe a.1 b.1

instance {α : Type} : DecidableRel (@pairLe α) := fun a b => by
  unfold pairLe; infer_instance

instance {α : Type} : IsTrans (Voxel × α) (@pairLe α) := by
  constructor
  intro a b c hab hbc
  unfold pairLe at *
  exact trans_of lexLe hab hbc

instance {α : Type} : IsTotal (Voxel × α) (@pairLe α) := by
  constructor
  intro a b
  unfold pairLe
  exact total_of lexLe a.1 b.1

/-- The row order used by np.unique(arr, axis=0): first coordinate is the
primary key (C order). -/
def cLt (a b : Voxel) : Prop :=
  a.1 < b.1 ∨ (a.1 = b.1 ∧ (a.2.1 < b.2.1 ∨ (a.2.1 = b.2.1 ∧ a.2.2 < b.2.2)))

/-- Reflexive closure of cLt. -/
def cLe (a b : Voxel) : Prop := cLt a b ∨ a = b

instance : DecidableRel cLt := fun a b => by unfold cLt; infer_instance

instance : DecidableRel cLe := fun a b => by unfold cLe; infer_instance

/-- Index of the first occurrence of c in vs. -/
def firstIdx (vs : List Voxel) (c : Voxel) : ℕ :=
  vs.findIdx (fun x => decide (x = c))

/-- np.unique(rows, axis=0, return_index=True): the distinct rows in C order,
each with the index of its first occurrence in the input. -/
def npUniqueRows (vs : List Voxel) : List (Voxel × ℕ) :=
  (List.insertionSort cLe vs.dedup).map (fun c => (c, firstIdx vs c))

/-- parse_sparse3d_fragment: lexsort, np.unique with first-occurrence data,
mask value < 4, lexsort again. -/
def parse_sparse3d_fragment (input : List (Voxel × ℚ)) : List (Voxel × ℚ) :=
  let sorted1 := List.insertionSort pairLe input
  let uniq := npUniqueRows (sorted1.map (fun r => r.1))
  let withData := uniq.map (fun ci => (ci.1, (sorted1.getD ci.2 default).2))
  let masked := withData.filter (fun cv => decide (cv.2 < 4))
  List.insertionSort pairLe masked

/-- arr[np.where(mask)[0]]: keep the entries of the list whose mask bit is
true. -/
def applyMask {α : Type} : List Bool → List α → List α
  | true :: bs, x :: xs => x :: applyMask bs xs
  | false :: bs, _ :: xs => applyMask bs xs
  | _, _ => []

/-- Helper for the first-occurrence mask: seen collects coordinates already
emitted. -/
def firstOccAux (seen : List Voxel) : List Voxel → List Bool
  | [] => []
  | v :: vs => (decide (v ∉ seen)) :: firstOccAux (v :: seen) vs

/-- Modelled from the spec: the helper filter_duplicate_voxels of
mlreco.utils.groups is not among the provided sources. Per the spec it
returns, for the sorted voxel array, a boolean mask selecting exactly the
first occurrence of each coordinate (first wins, not an aggregate). -/
def filter_duplicate_voxels (vs : List Voxel) : List Bool :=
  firstOccAux [] vs

/-- Modelled from the spec: the helper filter_nonimg_voxels of
mlreco.utils.groups is not among the provided sources. Per the spec it
returns a mask over the candidate voxels selecting those whose coordinate is
also present in the reference voxel set. -/
def filter_nonimg_voxels (grp img : List Voxel) : List Bool :=
  grp.map (fun c => decide (c ∈ img))

/-- Steps 1 and 2 of parse_cluster3d_clean_full: lexsort the cluster rows
and drop duplicate voxels (first occurrence wins). -/
def dedupStage (rows : List (Voxel × FeatRow)) : List (Voxel × FeatRow) :=
  let grpS := List.insertionSort pairLe rows
  applyMask (filter_duplicate_voxels (grpS.map (fun r => r.1))) grpS

/-- Steps 1 to 3 of parse_cluster3d_clean_full: lexsort the cluster rows,
drop duplicate voxels (first wins), drop voxels absent from the (sorted)
reference image. -/
def cleanPipeline (rows : List (Voxel × FeatRow)) (img : List (Voxel × ℚ)) :
    List (Voxel × FeatRow) :=
  let grp1 := dedupStage rows
  let imgS := List.insertionSort pairLe img
  applyMask (filter_nonimg_voxels (grp1.map (fun r => r.1))
    (imgS.map (fun r => r.1))) grp1

/-- grp_data[:,-1] = img_data[:,-1] applied to one row: replace the semantic
type column by the image value. -/
def overrideSem (g : Voxel × FeatRow) (iv : Voxel × ℚ) : Voxel × FeatRow :=
  (g.1, FeatRow.mk g.2.value g.2.cluster_id g.2.group_id iv.2)

/-- parse_cluster3d_clean_full: the cleaning pipeline followed by the
semantic-column override grp_data[:,-1] = img_data[:,-1]; the numpy
assignment broadcasts only when the lengths match or the source has one row,
and raises otherwise (none). -/
def parse_cluster3d_clean_full (parts : List Particle3D)
    (clusters : List Cluster) (img : List (Voxel × ℚ)) :
    Option (List (Voxel × FeatRow)) := do
  let rows ← parse_cluster3d_full parts clusters
  let grp2 := cleanPipeline rows img
  let imgS := List.insertionSort pairLe img
  if imgS.length = grp2.length then
    some (List.zipWith overrideSem grp2 imgS)
  else if imgS.length = 1 then
    some (grp2.map (fun g => overrideSem g (imgS.getD 0 default)))
  else none

/-- Modelled from the spec: get_interaction_id of mlreco.utils.groups is not
among the provided sources. Per the spec the interaction id is an injected
pure function of the resolved group id, applied consistently per voxel. -/
def get_interaction_id (interOf : ℕ → ℤ) (feats : List FeatRow) : List ℤ :=
  feats.map (fun f => interOf f.group_id)

/-- Modelled from the spec: get_nu_id of mlreco.utils.groups is not among
the provided sources. Per the spec the per-voxel neutrino flag is 1 exactly
when the voxel's interaction id equals the interaction id of the interaction
containing resolved group 0, and every flag is 0 when no interaction
contains group 0. -/
def get_nu_id (feats : List FeatRow) (interIds : List ℤ) : List ℤ :=
  match (feats.zip interIds).find? (fun fi => decide (fi.1.group_id = 0)) with
  | none => interIds.map (fun _ => (0 : ℤ))
  | some fi0 => interIds.map (fun i => if i = fi0.2 then 1 else 0)

/-- One output row's feature columns of parse_cluster3d_full_extended2:
voxel value, group id, interaction id, semantic type and neutrino flag. -/
structure ExtFeat where
  value : ℚ
  group_id : ℕ
  inter_id : ℤ
  sem_type : ℚ
  nu_id : ℤ
deriving DecidableEq

instance : Inhabited ExtFeat := ⟨⟨0, 0, 0, 0, 0⟩⟩

/-- The column surgery of parse_cluster3d_full_extended2: shift cluster id
out, insert interaction ids, append the neutrino flags. -/
def extendRows (interOf : ℕ → ℤ) (rows : List (Voxel × FeatRow)) :
    List (Voxel × ExtFeat) :=
  let feats := rows.map (fun r => r.2)
  let interIds := get_interaction_id interOf feats
  let nuIds := get_nu_id feats interIds
  (List.range rows.length).map (fun i =>
    ((rows.getD i default).1,
      ExtFeat.mk (rows.getD i default).2.value (rows.getD i default).2.group_id
        (interIds.getD i 0) (rows.getD i default).2.sem_type (nuIds.getD i 0)))

/-- parse_cluster3d_full_extended2: the full parser followed by interaction
ids and neutrino flags. -/
def parse_cluster3d_full_extended2 (interOf : ℕ → ℤ)
    (parts : List Particle3D) (clusters : List Cluster) :
    Option (List (Voxel × ExtFeat)) := do
  let rows ← parse_cluster3d_full parts clusters
  some (extendRows interOf rows)

/-- The private state of analysis.classes.Particle relevant to the index and
depositions accessors: _index, _size, _depositions and _depositions_sum. -/
structure ParticleState where
  index : List ℕ
  size : ℕ
  depositions : List ℚ
  depositions_sum_cache : ℚ
deriving DecidableEq

/-- The index setter: stores the voxel indices and sets _size to their
count. -/
def set_index (st : ParticleState) (idx : List ℕ) : ParticleState :=
  ParticleState.mk idx idx.length st.depositions st.depositions_sum_cache

/-- The depositions setter: stores the array and sets _depositions_sum to
np.sum(depositions). -/
def set_depositions (st : ParticleState) (d : List ℚ) : ParticleState :=
  ParticleState.mk st.index st.size d d.sum

/-- The depositions_sum property getter as written in the source: it returns
self._size. -/
def depositions_sum (st : ParticleState) : ℕ := st.size

/-- The part of Particle.__init__ touching these fields: self.index = index
then self.depositions = depositions. -/
def particle_init (index : List ℕ) (depositions : List ℚ) : ParticleState :=
  set_depositions (set_index (ParticleState.mk [] 0 [] 0) index) depositions

/-- The private state of Particle relevant to the pid_scores accessor. -/
structure PidState where
  pid_scores : List ℚ
  pid : ℤ
deriving DecidableEq

/-- The pid_scores setter as written: the s[0] < 0 branch assigns pid = -1
but does not return, so the trailing assignments run unconditionally. -/
def set_pid_scores (st : PidState) (s : List ℚ) : PidState :=
  let st1 := if s.getD 0 0 < 0 then PidState.mk s (-1) else st
  let st2 := PidState.mk s st1.pid
  PidState.mk st2.pid_scores ((npArgmax s : ℕ) : ℤ)

/-- The part of Particle.__init__ touching pid: self.pid_scores = pid_scores,
then if np.all(pid_scores < 0): self.pid = pid. -/
def init_pid (pid_scores : List ℚ) (pid : ℤ) : PidState :=
  let st1 := set_pid_scores (PidState.mk [] (-1)) pid_scores
  if pid_scores.all (fun x => decide (x < 0)) then
    PidState.mk st1.pid_scores pid
  else st1

/-- The member indices idxs = np.where(group_ids == g)[0] of a declared
group, read off the original group id array (in increasing particle id
order, as np.where returns them). -/
def groupMembers (parts : List Particle3D) (g : ℕ) : List ℕ :=
  (List.range (initGids parts).length).filter
    (fun j => decide ((initGids parts).getD j 0 = g))

/-- The first-step times of the members of a declared group, in member
order. -/
def memberTimes (parts : List Particle3D) (g : ℕ) : List ℚ :=
  (groupMembers parts g).map (fun j => (parts.getD j default).first_step_t)

/-- idxs[np.argmin(clust_times)]: the member the loop treats as earliest in
time (the first member attaining the minimal time, hence the lowest particle
id among exact ties). -/
def earliestMember (parts : List Particle3D) (g : ℕ) : ℕ :=
  (groupMembers parts g).getD (npArgminQ (memberTimes parts g)) 0

/-! ## Theorems -/

/-- C9: the claim says reading depositions_sum returns the sum of the
depositions array; the getter as written returns self._size instead (the
voxel count), even though the setter has stored the true sum in
_depositions_sum. Evaluated at index = [0,1,2], depositions = [1,2,3]: the
getter yields 3 while the deposition sum is 6. -/
theorem depositions_sum_returns_size_not_sum :
    depositions_sum (particle_init [0, 1, 2] [1, 2, 3]) = 3 ∧
    (particle_init [0, 1, 2] [1, 2, 3]).depositions = [1, 2, 3] ∧
    (particle_init [0, 1, 2] [1, 2, 3]).depositions_sum_cache = 6 ∧
    ([1, 2, 3] : List ℚ).sum = 6 ∧
    ((depositions_sum (particle_init [0, 1, 2] [1, 2, 3]) : ℚ) ≠
      (particle_init [0, 1, 2] [1, 2, 3]).depositions.sum) := by
  refine ⟨rfl, rfl, ?_, ?_, ?_⟩ <;>
    norm_num [particle_init, set_depositions, set_index, depositions_sum]

/-- C10: the pid_scores setter assigns pid = argmax(scores) unconditionally,
because the s[0] < 0 branch does not return and its pid = -1 assignment is
overwritten; after construction pid equals the explicit pid argument exactly
when every score is negative, and argmax otherwise. -/
theorem pid_scores_setter_argmax :
    (∀ (st : PidState) (s : List ℚ), s ≠ [] →
      (set_pid_scores st s).pid = ((npArgmax s : ℕ) : ℤ)) ∧
    (∀ (st : PidState) (s : List ℚ), s.getD 0 0 < 0 →
      (set_pid_scores st s).pid = ((npArgmax s : ℕ) : ℤ)) ∧
    (∀ (s : List ℚ) (p : ℤ), s ≠ [] → (∀ x ∈ s, x < 0) →
      (init_pid s p).pid = p) ∧
    (∀ (s : List ℚ) (p : ℤ), s ≠ [] → ¬(∀ x ∈ s, x < 0) →
      (init_pid s p).pid = ((npArgmax s : ℕ) : ℤ)) := by
  refine ⟨fun st s _ => rfl, fun st s _ => rfl, ?_, ?_⟩
  · intro s p _ hall
    have hA : s.all (fun x => decide (x < 0)) = true := by
      rw [List.all_eq_true]
      intro x hx
      exact decide_eq_true (hall x hx)
    simp [init_pid, hA]
  · intro s p _ hall
    have hA : ¬ (s.all (fun x => decide (x < 0)) = true) := by
      rw [List.all_eq_true]
      intro hB
      exact hall (fun x hx => of_decide_eq_true (hB x hx))
    simp [init_pid, hA, set_pid_scores]

/-- Witness for C10: a concrete all-negative score array, where the setter
still yields argmax = 0 and the constructor restores the explicit pid 7. -/
theorem pid_scores_setter_argmax_witness :
    (set_pid_scores (PidState.mk [] 0) [-1, -3]).pid = ((npArgmax [-1, -3] : ℕ) : ℤ) ∧
    (init_pid [-1, -3] 7).pid = 7 :=
  ⟨pid_scores_setter_argmax.1 (PidState.mk [] 0) [-1, -3] (by decide),
   pid_scores_setter_argmax.2.2.1 [-1, -3] 7 (by decide) (by decide)⟩

/-! ### List helper lemmas -/

theorem getD_map_of_lt {α β : Type} (f : α → β) (l : List α) (j : ℕ)
    (h : j < l.length) (d : β) (d2 : α) :
    (l.map f).getD j d = f (l.getD j d2) := by
  rw [List.getD_eq_getElem _ _ (by simpa), List.getD_eq_getElem _ _ h,
    List.getElem_map]

theorem getD_mem_of_lt {α : Type} (l : List α) (j : ℕ) (h : j < l.length)
    (d : α) : l.getD j d ∈ l := by
  rw [List.getD_eq_getElem _ _ h]
  exact List.getElem_mem h

theorem getD_zip_pair {α β : Type} (l1 : List α) (l2 : List β) (k : ℕ)
    (d1 : α) (d2 : β) (h1 : k < l1.length) (h2 : k < l2.length) :
    (l1.zip l2).getD k (d1, d2) = (l1.getD k d1, l2.getD k d2) := by
  have hk : k < (l1.zip l2).length := by
    rw [List.length_zip]
    exact lt_min h1 h2
  rw [List.getD_eq_getElem _ _ hk, List.getD_eq_getElem _ _ h1,
    List.getD_eq_getElem _ _ h2]
  exact List.getElem_zip

theorem getD_zipWith_pair {α β γ : Type} (f : α → β → γ) (l1 : List α)
    (l2 : List β) (k : ℕ) (d1 : α) (d2 : β) (d3 : γ) (h1 : k < l1.length)
    (h2 : k < l2.length) :
    (List.zipWith f l1 l2).getD k d3 = f (l1.getD k d1) (l2.getD k d2) := by
  have hk : k < (List.zipWith f l1 l2).length := by
    rw [List.length_zipWith]
    exact lt_min h1 h2
  rw [List.getD_eq_getElem _ _ hk, List.getD_eq_getElem _ _ h1,
    List.getD_eq_getElem _ _ h2]
  exact List.getElem_zipWith

theorem demote_gids_length (st : ResState) (gid : ℕ) :
    (demote st gid).gids.length = st.gids.length := by
  simp [demote]

theorem demote_newGroup (st : ResState) (gid : ℕ) :
    (demote st gid).newGroup = st.newGroup + 1 := rfl

theorem demote_gids_getD (st : ResState) (gid j : ℕ) (h : j < st.gids.length) :
    (demote st gid).gids.getD j 0 =
      if st.gids.getD j 0 = gid then st.newGroup else st.gids.getD j 0 := by
  simp only [demote]
  exact getD_map_of_lt _ _ _ h _ 0

theorem initGids_length (parts : List Particle3D) :
    (initGids parts).length = parts.length := by
  simp [initGids]

theorem mem_initGids_lt (parts : List Particle3D) (clusters : List Cluster)
    (hWF : WF parts clusters) (g : ℕ) (hg : g ∈ initGids parts) :
    g < parts.length := by
  obtain ⟨p, hp, rfl⟩ := List.mem_map.mp hg
  exact hWF.2 p hp

theorem exists_index_of_mem_initGids (parts : List Particle3D) (g : ℕ)
    (hg : g ∈ initGids parts) :
    ∃ j, j < parts.length ∧ (initGids parts).getD j 0 = g := by
  obtain ⟨j, hj, hval⟩ := List.mem_iff_getElem.mp hg
  rw [initGids_length] at hj
  refine ⟨j, hj, ?_⟩
  rw [List.getD_eq_getElem _ _ (by simpa [initGids_length])]
  exact hval

theorem sortedUnique_nodup (l : List ℕ) : (sortedUnique l).Nodup :=
  ((List.perm_insertionSort _ _).nodup_iff).mpr (List.nodup_dedup l)

theorem mem_sortedUnique (l : List ℕ) (a : ℕ) : a ∈ sortedUnique l ↔ a ∈ l := by
  rw [sortedUnique]
  rw [(List.perm_insertionSort (fun a b => a ≤ b) l.dedup).mem_iff]
  exact List.mem_dedup

theorem sortedUnique_sorted (l : List ℕ) :
    (sortedUnique l).Sorted (fun a b => a ≤ b) :=
  List.sorted_insertionSort _ _

theorem sortedUnique_pairwise_lt (l : List ℕ) :
    (sortedUnique l).Pairwise (fun a b => a < b) := by
  have h1 := sortedUnique_sorted l
  have h2 := sortedUnique_nodup l
  have h3 := List.Pairwise.and h1 h2
  exact h3.imp (fun hab => lt_of_le_of_ne hab.1 hab.2)

theorem npArgminQ_lt_length (l : List ℚ) (h : l ≠ []) :
    npArgminQ l < l.length := by
  induction l with
  | nil => exact absurd rfl h
  | cons x t ih =>
    cases t with
    | nil => simp [npArgminQ]
    | cons y t2 =>
      have ht : npArgminQ (y :: t2) < (y :: t2).length := ih (by simp)
      simp only [npArgminQ]
      split
      · simpa using ht
      · simp

theorem npArgminQ_le (l : List ℚ) (i : ℕ) (hi : i < l.length) :
    l.getD (npArgminQ l) 0 ≤ l.getD i 0 := by
  induction l generalizing i with
  | nil => simp at hi
  | cons x t ih =>
    cases t with
    | nil =>
      have : i = 0 := by simpa using hi
      subst this
      simp [npArgminQ]
    | cons y t2 =>
      simp only [npArgminQ]
      split
      · rename_i hlt
        cases i with
        | zero =>
          simpa using le_of_lt hlt
        | succ i2 =>
          have := ih i2 (by simpa using hi)
          simpa using this
      · rename_i hge
        push_neg at hge
        cases i with
        | zero => simp
        | succ i2 =>
          have h2 := ih i2 (by simpa using hi)
          have h3 := hge.trans h2
          simpa using h3

theorem npArgminQ_first (l : List ℚ) (i : ℕ) (hi : i < npArgminQ l) :
    l.getD (npArgminQ l) 0 < l.getD i 0 := by
  induction l generalizing i with
  | nil => simp [npArgminQ] at hi
  | cons x t ih =>
    cases t with
    | nil => simp [npArgminQ] at hi
    | cons y t2 =>
      simp only [npArgminQ] at hi ⊢
      split
      · rename_i hlt
        rw [if_pos hlt] at hi
        cases i with
        | zero => simpa using hlt
        | succ i2 =>
          have := ih i2 (by omega)
          simpa using this
      · rename_i hge
        rw [if_neg hge] at hi
        omega

theorem takeWhile_ne_cons_of_ne (g gj : ℕ) (rs : List ℕ) (h : g ≠ gj) :
    ((g :: rs).takeWhile (fun x => decide (x ≠ gj))) =
      g :: rs.takeWhile (fun x => decide (x ≠ gj)) := by
  simp [List.takeWhile_cons, h]

theorem takeWhile_ne_cons_self (g : ℕ) (rs : List ℕ) :
    ((g :: rs).takeWhile (fun x => decide (x ≠ g))) = [] := by
  simp [List.takeWhile_cons]

/-! ### The resolution step matches the pure demotion decision -/

theorem resolveStep_eq (parts : List Particle3D) (clusters : List Cluster)
    (hWF : WF parts clusters) (st : ResState) (g : ℕ)
    (hg : g ∈ initGids parts)
    (hlen : st.gids.length = parts.length)
    (hiff : ∀ j, j < parts.length →
      (st.gids.getD j 0 = g ↔ (initGids parts).getD j 0 = g)) :
    resolveStep parts clusters st g =
      some (if groupDemoted parts clusters g = true then demote st g else st) := by
  have hgN : g < parts.length := mem_initGids_lt parts clusters hWF g hg
  have hgC : g < clusters.length := hWF.1 ▸ hgN
  obtain ⟨prim, hp⟩ : ∃ p, parts[g]? = some p :=
    ⟨_, List.getElem?_eq_getElem hgN⟩
  obtain ⟨cl, hc⟩ : ∃ c, clusters[g]? = some c :=
    ⟨_, List.getElem?_eq_getElem hgC⟩
  have hfilter : (List.range st.gids.length).filter
        (fun j => decide (st.gids.getD j 0 = g)) =
      (List.range (initGids parts).length).filter
        (fun j => decide ((initGids parts).getD j 0 = g)) := by
    rw [hlen, initGids_length]
    refine List.filter_congr (fun j hj => ?_)
    have hjlt : j < parts.length := List.mem_range.mp hj
    rw [decide_eq_decide]
    exact hiff j hjlt
  have hne : (List.range (initGids parts).length).filter
      (fun j => decide ((initGids parts).getD j 0 = g)) ≠ [] := by
    obtain ⟨j, hj, hval⟩ := exists_index_of_mem_initGids parts g hg
    have hjmem : j ∈ (List.range (initGids parts).length).filter
        (fun j => decide ((initGids parts).getD j 0 = g)) := by
      rw [List.mem_filter]
      exact ⟨List.mem_range.mpr (by rw [initGids_length]; exact hj),
        decide_eq_true hval⟩
    exact List.ne_nil_of_mem hjmem
  simp only [resolveStep, groupDemoted, hp, hc]
  by_cases hshape : prim.shape ≠ 0 ∧ prim.shape ≠ 4
  · simp [hshape]
  · rw [if_neg hshape, if_neg hshape]
    by_cases hveto : vetoProcess prim = true
    · simp [hveto]
    · rw [Bool.not_eq_true] at hveto
      simp only [hveto, Bool.false_eq_true, if_false]
      by_cases hcl : cl.length = 0
      · simp [hcl]
      · rw [if_neg hcl, if_neg hcl]
        rw [hfilter]
        have htne : ((List.range (initGids parts).length).filter
            (fun j => decide ((initGids parts).getD j 0 = g))).map
              (fun j => (parts.getD j default).first_step_t) ≠ [] := by
          rw [Ne, List.map_eq_nil_iff]
          exact hne
        rw [if_neg htne]
        split
        · rename_i h
          rw [if_pos (decide_eq_true h)]
        · rename_i h
          rw [if_neg (by simp only [decide_eq_true_eq]; exact h)]

/-! ### The fold characterization of the resolution loop -/

theorem resolve_fold (parts : List Particle3D) (clusters : List Cluster)
    (hWF : WF parts clusters) :
    ∀ (rest : List ℕ) (st : ResState),
      rest.Nodup →
      (∀ g ∈ rest, g ∈ initGids parts) →
      st.gids.length = parts.length →
      clusters.length + 1 ≤ st.newGroup →
      (∀ g ∈ rest, ∀ j, j < parts.length →
        (st.gids.getD j 0 = g ↔ (initGids parts).getD j 0 = g)) →
      ∃ st2, rest.foldlM (resolveStep parts clusters) st = some st2 ∧
        st2.gids.length = parts.length ∧
        st2.newGroup = st.newGroup +
          (rest.filter (fun g => groupDemoted parts clusters g)).length ∧
        ∀ j, j < parts.length →
          st2.gids.getD j 0 =
            if (initGids parts).getD j 0 ∈ rest ∧
                groupDemoted parts clusters ((initGids parts).getD j 0) = true
            then st.newGroup +
              ((rest.takeWhile
                (fun x => decide (x ≠ (initGids parts).getD j 0))).filter
                  (fun x => groupDemoted parts clusters x)).length
            else st.gids.getD j 0 := by
  intro rest
  induction rest with
  | nil =>
    intro st _ _ hlen _ _
    refine ⟨st, by simp, hlen, by simp, ?_⟩
    intro j hj
    simp
  | cons g rs ih =>
    intro st hnd hsub hlen hng hiff
    have hgmem : g ∈ initGids parts := hsub g (by simp)
    have hstep := resolveStep_eq parts clusters hWF st g hgmem hlen
      (fun j hj => hiff g (by simp) j hj)
    have hgrs : g ∉ rs := (List.nodup_cons.mp hnd).1
    have hndrs : rs.Nodup := (List.nodup_cons.mp hnd).2
    have hsubrs : ∀ g2 ∈ rs, g2 ∈ initGids parts :=
      fun g2 hg2 => hsub g2 (List.mem_cons_of_mem _ hg2)
    cases hD : groupDemoted parts clusters g with
    | false =>
      rw [hD] at hstep
      simp only [Bool.false_eq_true, if_false] at hstep
      obtain ⟨st2, hfold, hlen2, hng2, hvals⟩ := ih st hndrs hsubrs hlen hng
        (fun g2 hg2 j hj => hiff g2 (List.mem_cons_of_mem _ hg2) j hj)
      refine ⟨st2, ?_, hlen2, ?_, ?_⟩
      · rw [List.foldlM_cons, hstep]
        simpa using hfold
      · rw [hng2, List.filter_cons_of_neg (by simp [hD])]
      · intro j hj
        rw [hvals j hj]
        by_cases h1 : (initGids parts).getD j 0 ∈ rs ∧
            groupDemoted parts clusters ((initGids parts).getD j 0) = true
        · have hne : (initGids parts).getD j 0 ≠ g := fun he => hgrs (he ▸ h1.1)
          rw [if_pos h1, if_pos ⟨List.mem_cons_of_mem _ h1.1, h1.2⟩]
          rw [takeWhile_ne_cons_of_ne g _ rs (fun he => hne he.symm)]
          rw [List.filter_cons_of_neg (by simp [hD])]
        · rw [if_neg h1, if_neg ?_]
          rintro ⟨hmem, hDj⟩
          rcases List.mem_cons.mp hmem with h2 | h2
          · rw [h2] at hDj
            rw [hD] at hDj
            exact Bool.false_ne_true hDj
          · exact h1 ⟨h2, hDj⟩
    | true =>
      rw [hD] at hstep
      simp only [if_true] at hstep
      have hlen1 : (demote st g).gids.length = parts.length := by
        rw [demote_gids_length]; exact hlen
      have hng1 : clusters.length + 1 ≤ (demote st g).newGroup := by
        rw [demote_newGroup]; omega
      have hiff1 : ∀ g2 ∈ rs, ∀ j, j < parts.length →
          ((demote st g).gids.getD j 0 = g2 ↔ (initGids parts).getD j 0 = g2) := by
        intro g2 hg2 j hj
        have hjlen : j < st.gids.length := by rw [hlen]; exact hj
        rw [demote_gids_getD st g j hjlen]
        have hg2lt : g2 < parts.length :=
          mem_initGids_lt parts clusters hWF g2 (hsubrs g2 hg2)
        have hg2ne : st.newGroup ≠ g2 := by
          have := hWF.1
          omega
        by_cases hsg : st.gids.getD j 0 = g
        · rw [if_pos hsg]
          constructor
          · intro h
            exact absurd h hg2ne
          · intro hig
            have higg : (initGids parts).getD j 0 = g :=
              (hiff g (by simp) j hj).mp hsg
            rw [higg] at hig
            exact absurd (hig ▸ hg2) hgrs
        · rw [if_neg hsg]
          exact hiff g2 (List.mem_cons_of_mem _ hg2) j hj
      obtain ⟨st2, hfold, hlen2, hng2, hvals⟩ := ih (demote st g) hndrs hsubrs
        hlen1 hng1 hiff1
      refine ⟨st2, ?_, hlen2, ?_, ?_⟩
      · rw [List.foldlM_cons, hstep]
        simpa using hfold
      · rw [hng2, demote_newGroup, List.filter_cons_of_pos (by simp [hD])]
        simp only [List.length_cons]
        omega
      · intro j hj
        rw [hvals j hj]
        have hjlen : j < st.gids.length := by rw [hlen]; exact hj
        by_cases h1 : (initGids parts).getD j 0 ∈ rs ∧
            groupDemoted parts clusters ((initGids parts).getD j 0) = true
        · have hne : (initGids parts).getD j 0 ≠ g := fun he => hgrs (he ▸ h1.1)
          rw [if_pos h1, if_pos ⟨List.mem_cons_of_mem _ h1.1, h1.2⟩]
          rw [takeWhile_ne_cons_of_ne g _ rs (fun he => hne he.symm)]
          rw [List.filter_cons_of_pos (by simp [hD])]
          rw [demote_newGroup]
          simp only [List.length_cons]
          omega
        · rw [if_neg h1]
          by_cases h2 : (initGids parts).getD j 0 = g
          · rw [if_pos ⟨by rw [h2]; exact List.mem_cons_self _ _, by rw [h2]; exact hD⟩]
            have htw : ((g :: rs).takeWhile
                (fun x => decide (x ≠ (initGids parts).getD j 0))) = [] := by
              rw [h2]
              exact takeWhile_ne_cons_self g rs
            rw [htw]
            have hsg : st.gids.getD j 0 = g := (hiff g (by simp) j hj).mpr h2
            rw [demote_gids_getD st g j hjlen, if_pos hsg]
            simp
          · rw [if_neg ?_, demote_gids_getD st g j hjlen, if_neg ?_]
            · intro hsg
              exact h2 ((hiff g (by simp) j hj).mp hsg)
            · rintro ⟨hmem, hDj⟩
              rcases List.mem_cons.mp hmem with h3 | h3
              · exact h2 h3
              · exact h1 ⟨h3, hDj⟩

/-- Master characterization: under well-formed input the resolution loop
never fails, and every particle's resolved group id is resolvedGid of its
declared group id. -/
theorem resolveGroups_spec (parts : List Particle3D) (clusters : List Cluster)
    (hWF : WF parts clusters) :
    ∃ st, resolveGroups parts clusters = some st ∧
      st.gids.length = parts.length ∧
      st.newGroup = clusters.length + 1 + (demotedList parts clusters).length ∧
      ∀ j, j < parts.length →
        st.gids.getD j 0 = resolvedGid parts clusters ((initGids parts).getD j 0) := by
  obtain ⟨st, hfold, hlen, hng, hvals⟩ := resolve_fold parts clusters hWF
    (sortedUnique (initGids parts)) ⟨initGids parts, clusters.length + 1⟩
    (sortedUnique_nodup (initGids parts))
    (fun g hg => (mem_sortedUnique _ g).mp hg)
    (initGids_length parts) (le_refl _)
    (fun g _ j _ => Iff.rfl)
  refine ⟨st, hfold, hlen, by rw [hng]; rfl, ?_⟩
  intro j hj
  rw [hvals j hj]
  have hmem : (initGids parts).getD j 0 ∈ sortedUnique (initGids parts) :=
    (mem_sortedUnique _ _).mpr
      (getD_mem_of_lt _ j (by rw [initGids_length]; exact hj) 0)
  by_cases hD : groupDemoted parts clusters ((initGids parts).getD j 0) = true
  · rw [if_pos ⟨hmem, hD⟩, resolvedGid, if_pos hD]
    rfl
  · rw [if_neg (fun hc => hD hc.2), resolvedGid, if_neg hD]

/-! ### Fresh-id counting helpers -/

theorem takeWhile_ne_eq_filter_lt (l : List ℕ) (g : ℕ)
    (hsort : l.Pairwise (fun a b => a < b)) (hg : g ∈ l) :
    l.takeWhile (fun x => decide (x ≠ g)) = l.filter (fun x => decide (x < g)) := by
  induction l with
  | nil => rfl
  | cons a t ih =>
    have hpc := List.pairwise_cons.mp hsort
    rcases List.mem_cons.mp hg with rfl | hgt
    · rw [takeWhile_ne_cons_self]
      rw [List.filter_cons_of_neg (by simp)]
      symm
      rw [List.filter_eq_nil_iff]
      intro x hx
      have := hpc.1 x hx
      simp only [decide_eq_true_eq]
      omega
    · have hag : a < g := hpc.1 g hgt
      rw [takeWhile_ne_cons_of_ne a g t (by omega),
        List.filter_cons_of_pos (by simp [hag]), ih hpc.2 hgt]

theorem filter_lt_getD_sorted (l : List ℕ)
    (hsort : l.Pairwise (fun a b => a < b)) :
    ∀ k, k < l.length →
      l.filter (fun x => decide (x < l.getD k 0)) = l.take k := by
  induction l with
  | nil =>
    intro k hk
    simp at hk
  | cons a t ih =>
    intro k hk
    have hpc := List.pairwise_cons.mp hsort
    cases k with
    | zero =>
      rw [List.getD_cons_zero, List.filter_cons_of_neg (by simp), List.take_zero]
      rw [List.filter_eq_nil_iff]
      intro x hx
      have := hpc.1 x hx
      simp
      omega
    | succ k2 =>
      have hk2 : k2 < t.length := by simpa using hk
      rw [List.getD_cons_succ]
      have htk : t.getD k2 0 ∈ t := getD_mem_of_lt t k2 hk2 0
      have hak : a < t.getD k2 0 := hpc.1 _ htk
      rw [List.filter_cons_of_pos (by simp only [decide_eq_true_eq]; exact hak),
        List.take_succ_cons, ih hpc.2 k2 hk2]

theorem filter_comm_nat (l : List ℕ) (p q : ℕ → Bool) :
    (l.filter p).filter q = (l.filter q).filter p := by
  simp [List.filter_filter, Bool.and_comm]

theorem countBeforeUniq_eq_filter_lt (parts : List Particle3D)
    (clusters : List Cluster) (g : ℕ)
    (hg : g ∈ sortedUnique (initGids parts)) :
    countBeforeUniq parts clusters g =
      ((demotedList parts clusters).filter (fun x => decide (x < g))).length := by
  rw [countBeforeUniq,
    takeWhile_ne_eq_filter_lt _ g (sortedUnique_pairwise_lt _) hg,
    demotedList, filter_comm_nat]

theorem demotedList_pairwise_lt (parts : List Particle3D)
    (clusters : List Cluster) :
    (demotedList parts clusters).Pairwise (fun a b => a < b) :=
  (sortedUnique_pairwise_lt _).filter _

theorem freshId_demotedList (parts : List Particle3D) (clusters : List Cluster)
    (k : ℕ) (hk : k < (demotedList parts clusters).length) :
    freshId parts clusters ((demotedList parts clusters).getD k 0) =
      clusters.length + 1 + k := by
  have hmem_uniq : (demotedList parts clusters).getD k 0 ∈
      sortedUnique (initGids parts) :=
    List.mem_of_mem_filter (getD_mem_of_lt _ k hk 0)
  rw [freshId, countBeforeUniq_eq_filter_lt _ _ _ hmem_uniq,
    filter_lt_getD_sorted _ (demotedList_pairwise_lt parts clusters) k hk,
    List.length_take, min_eq_left (le_of_lt hk)]

/-! ### Claims about the group-resolution loop -/

/-- C4: a declared group whose primary particle has shape outside
{shower (0), low-energy (4)} is skipped by the loop: every member keeps its
declared group id, whatever the cluster sizes and times are. -/
theorem shape_gate_keeps_declared (parts : List Particle3D)
    (clusters : List Cluster) (hWF : WF parts clusters) (g : ℕ)
    (prim : Particle3D) (hprim : parts[g]? = some prim)
    (h0 : prim.shape ≠ 0) (h4 : prim.shape ≠ 4) :
    ∃ st, resolveGroups parts clusters = some st ∧
      ∀ j, j < parts.length → (initGids parts).getD j 0 = g →
        st.gids.getD j 0 = g := by
  obtain ⟨st, hres, _, _, hvals⟩ := resolveGroups_spec parts clusters hWF
  have hD : groupDemoted parts clusters g = false := by
    simp only [groupDemoted, hprim]
    rw [if_pos ⟨h0, h4⟩]
  refine ⟨st, hres, ?_⟩
  intro j hj hgj
  rw [hvals j hj, hgj, resolvedGid, if_neg (by simp [hD])]

/-- Witness for C4: a two-particle track group (shape 1) with declared group
id 1 and empty clusters is left untouched. -/
theorem shape_gate_keeps_declared_witness :
    ∃ st, resolveGroups
        [⟨0, 1, 1, "primary", 0, 5⟩, ⟨1, 1, 1, "muIoni", 0, 2⟩]
        [[], []] = some st ∧
      ∀ j, j < ([⟨0, 1, 1, "primary", 0, 5⟩,
          ⟨1, 1, 1, "muIoni", 0, 2⟩] : List Particle3D).length →
        (initGids [⟨0, 1, 1, "primary", 0, 5⟩,
          ⟨1, 1, 1, "muIoni", 0, 2⟩]).getD j 0 = 1 →
        st.gids.getD j 0 = 1 :=
  shape_gate_keeps_declared _ _ (by decide) 1 ⟨1, 1, 1, "muIoni", 0, 2⟩
    (by decide) (by decide) (by decide)

/-- C2: the process/PDG veto. If the primary of a shape-gated group has a
creation process containing Inelastic or Capture, or abs(parent pdg) = 13,
the whole group is demoted to one common fresh id larger than every declared
group id; no hypothesis on the primary's voxel count or on the members'
times is needed, since the veto is evaluated before the empty-primary and
time-ordering vetoes. -/
theorem process_veto_demotes (parts : List Particle3D)
    (clusters : List Cluster) (hWF : WF parts clusters) (g : ℕ)
    (prim : Particle3D) (hprim : parts[g]? = some prim)
    (hshape : prim.shape = 0 ∨ prim.shape = 4)
    (hveto : vetoProcess prim = true) :
    ∃ st, resolveGroups parts clusters = some st ∧
      ∃ f, clusters.length < f ∧ (∀ p ∈ parts, p.group_id < f) ∧
        ∀ j, j < parts.length → (initGids parts).getD j 0 = g →
          st.gids.getD j 0 = f := by
  obtain ⟨st, hres, _, _, hvals⟩ := resolveGroups_spec parts clusters hWF
  have hshape2 : ¬ (prim.shape ≠ 0 ∧ prim.shape ≠ 4) := by
    rcases hshape with h | h <;> simp [h]
  have hD : groupDemoted parts clusters g = true := by
    simp only [groupDemoted, hprim]
    rw [if_neg hshape2, if_pos hveto]
  refine ⟨st, hres, freshId parts clusters g,
    by simp only [freshId]; omega, ?_, ?_⟩
  · intro p hp
    have h1 : p.group_id < parts.length := hWF.2 p hp
    have h2 : parts.length = clusters.length := hWF.1
    simp only [freshId]
    omega
  · intro j hj hgj
    rw [hvals j hj, hgj, resolvedGid, if_pos hD]

/-- Witness for C2: a muMinusCaptureAtRest shower group (declared id 0) is
demoted as a whole, although its primary cluster is nonempty and the primary
is not earliest in time. -/
theorem process_veto_demotes_witness :
    ∃ st, resolveGroups
        [⟨0, 0, 0, "muMinusCaptureAtRest", 0, 5⟩, ⟨1, 0, 0, "compt", 11, 2⟩]
        [[(((0 : ℤ), (0 : ℤ), (0 : ℤ)), 1)], [(((1 : ℤ), (1 : ℤ), (1 : ℤ)), 1)]]
        = some st ∧
      ∃ f, ([[(((0 : ℤ), (0 : ℤ), (0 : ℤ)), 1)],
          [(((1 : ℤ), (1 : ℤ), (1 : ℤ)), 1)]] : List Cluster).length < f ∧
        (∀ p ∈ ([⟨0, 0, 0, "muMinusCaptureAtRest", 0, 5⟩,
            ⟨1, 0, 0, "compt", 11, 2⟩] : List Particle3D), p.group_id < f) ∧
        ∀ j, j < ([⟨0, 0, 0, "muMinusCaptureAtRest", 0, 5⟩,
            ⟨1, 0, 0, "compt", 11, 2⟩] : List Particle3D).length →
          (initGids [⟨0, 0, 0, "muMinusCaptureAtRest", 0, 5⟩,
            ⟨1, 0, 0, "compt", 11, 2⟩]).getD j 0 = 0 →
          st.gids.getD j 0 = f :=
  process_veto_demotes _ _ (by decide) 0 ⟨0, 0, 0, "muMinusCaptureAtRest", 0, 5⟩
    (by decide) (Or.inl rfl) (by decide)

/-- C3: fresh ids. Any member whose resolved group id differs from its
declared one belongs to a demoted group and carries the freshId of that
group, which is strictly larger than every declared group id; the demoted
groups, listed in increasing declared id, receive consecutive fresh ids
num_clusters + 1 + k; members of the same demoted group share one fresh
id. -/
theorem fresh_group_ids (parts : List Particle3D) (clusters : List Cluster)
    (hWF : WF parts clusters) :
    ∃ st, resolveGroups parts clusters = some st ∧
      (∀ j, j < parts.length →
        st.gids.getD j 0 ≠ (initGids parts).getD j 0 →
          (∀ p ∈ parts, p.group_id < st.gids.getD j 0) ∧
          groupDemoted parts clusters ((initGids parts).getD j 0) = true ∧
          st.gids.getD j 0 = freshId parts clusters ((initGids parts).getD j 0)) ∧
      (∀ j, j < parts.length →
        groupDemoted parts clusters ((initGids parts).getD j 0) = true →
          st.gids.getD j 0 = freshId parts clusters ((initGids parts).getD j 0)) ∧
      (demotedList parts clusters).Pairwise (fun a b => a < b) ∧
      (∀ k, k < (demotedList parts clusters).length →
        freshId parts clusters ((demotedList parts clusters).getD k 0) =
          clusters.length + 1 + k) := by
  obtain ⟨st, hres, _, _, hvals⟩ := resolveGroups_spec parts clusters hWF
  refine ⟨st, hres, ?_, ?_, demotedList_pairwise_lt parts clusters,
    freshId_demotedList parts clusters⟩
  · intro j hj hne
    rw [hvals j hj] at hne ⊢
    by_cases hD : groupDemoted parts clusters ((initGids parts).getD j 0) = true
    · refine ⟨?_, hD, by rw [resolvedGid, if_pos hD]⟩
      intro p hp
      rw [resolvedGid, if_pos hD]
      have h1 : p.group_id < parts.length := hWF.2 p hp
      have h2 : parts.length = clusters.length := hWF.1
      simp only [freshId]
      omega
    · exact absurd (by rw [resolvedGid, if_neg hD]) hne
  · intro j hj hD
    rw [hvals j hj, resolvedGid, if_pos hD]

/-- Witness for C3: an event with two demoted shower groups (ids 0 and 1)
receiving consecutive fresh ids num_clusters + 1 = 3 and 4. -/
theorem fresh_group_ids_witness :
    ∃ st, resolveGroups
        [⟨0, 0, 0, "nCapture", 0, 1⟩, ⟨1, 1, 0, "protonInelastic", 0, 2⟩]
        [[(((0 : ℤ), (0 : ℤ), (0 : ℤ)), 1)], [(((1 : ℤ), (1 : ℤ), (1 : ℤ)), 1)]]
        = some st ∧
      (∀ j, j < ([⟨0, 0, 0, "nCapture", 0, 1⟩,
          ⟨1, 1, 0, "protonInelastic", 0, 2⟩] : List Particle3D).length →
        st.gids.getD j 0 ≠ (initGids [⟨0, 0, 0, "nCapture", 0, 1⟩,
          ⟨1, 1, 0, "protonInelastic", 0, 2⟩]).getD j 0 →
          (∀ p ∈ ([⟨0, 0, 0, "nCapture", 0, 1⟩,
            ⟨1, 1, 0, "protonInelastic", 0, 2⟩] : List Particle3D),
            p.group_id < st.gids.getD j 0) ∧
          groupDemoted [⟨0, 0, 0, "nCapture", 0, 1⟩,
            ⟨1, 1, 0, "protonInelastic", 0, 2⟩]
            [[(((0 : ℤ), (0 : ℤ), (0 : ℤ)), 1)],
              [(((1 : ℤ), (1 : ℤ), (1 : ℤ)), 1)]]
            ((initGids [⟨0, 0, 0, "nCapture", 0, 1⟩,
              ⟨1, 1, 0, "protonInelastic", 0, 2⟩]).getD j 0) = true ∧
          st.gids.getD j 0 = freshId [⟨0, 0, 0, "nCapture", 0, 1⟩,
            ⟨1, 1, 0, "protonInelastic", 0, 2⟩]
            [[(((0 : ℤ), (0 : ℤ), (0 : ℤ)), 1)],
              [(((1 : ℤ), (1 : ℤ), (1 : ℤ)), 1)]]
            ((initGids [⟨0, 0, 0, "nCapture", 0, 1⟩,
              ⟨1, 1, 0, "protonInelastic", 0, 2⟩]).getD j 0)) ∧
      (∀ j, j < ([⟨0, 0, 0, "nCapture", 0, 1⟩,
          ⟨1, 1, 0, "protonInelastic", 0, 2⟩] : List Particle3D).length →
        groupDemoted [⟨0, 0, 0, "nCapture", 0, 1⟩,
          ⟨1, 1, 0, "protonInelastic", 0, 2⟩]
          [[(((0 : ℤ), (0 : ℤ), (0 : ℤ)), 1)],
            [(((1 : ℤ), (1 : ℤ), (1 : ℤ)), 1)]]
          ((initGids [⟨0, 0, 0, "nCapture", 0, 1⟩,
            ⟨1, 1, 0, "protonInelastic", 0, 2⟩]).getD j 0) = true →
          st.gids.getD j 0 = freshId [⟨0, 0, 0, "nCapture", 0, 1⟩,
            ⟨1, 1, 0, "protonInelastic", 0, 2⟩]
            [[(((0 : ℤ), (0 : ℤ), (0 : ℤ)), 1)],
              [(((1 : ℤ), (1 : ℤ), (1 : ℤ)), 1)]]
            ((initGids [⟨0, 0, 0, "nCapture", 0, 1⟩,
              ⟨1, 1, 0, "protonInelastic", 0, 2⟩]).getD j 0)) ∧
      (demotedList [⟨0, 0, 0, "nCapture", 0, 1⟩,
        ⟨1, 1, 0, "protonInelastic", 0, 2⟩]
        [[(((0 : ℤ), (0 : ℤ), (0 : ℤ)), 1)],
          [(((1 : ℤ), (1 : ℤ), (1 : ℤ)), 1)]]).Pairwise (fun a b => a < b) ∧
      (∀ k, k < (demotedList [⟨0, 0, 0, "nCapture", 0, 1⟩,
          ⟨1, 1, 0, "protonInelastic", 0, 2⟩]
          [[(((0 : ℤ), (0 : ℤ), (0 : ℤ)), 1)],
            [(((1 : ℤ), (1 : ℤ), (1 : ℤ)), 1)]]).length →
        freshId [⟨0, 0, 0, "nCapture", 0, 1⟩,
          ⟨1, 1, 0, "protonInelastic", 0, 2⟩]
          [[(((0 : ℤ), (0 : ℤ), (0 : ℤ)), 1)],
            [(((1 : ℤ), (1 : ℤ), (1 : ℤ)), 1)]]
          ((demotedList [⟨0, 0, 0, "nCapture", 0, 1⟩,
            ⟨1, 1, 0, "protonInelastic", 0, 2⟩]
            [[(((0 : ℤ), (0 : ℤ), (0 : ℤ)), 1)],
              [(((1 : ℤ), (1 : ℤ), (1 : ℤ)), 1)]]).getD k 0) =
          ([[(((0 : ℤ), (0 : ℤ), (0 : ℤ)), 1)],
            [(((1 : ℤ), (1 : ℤ), (1 : ℤ)), 1)]] : List Cluster).length + 1 + k) :=
  fresh_group_ids _ _ (by decide)

/-- In the time-ordering branch the demotion decision is exactly
"the earliest member is not particle g itself". -/
theorem groupDemoted_time_branch (parts : List Particle3D)
    (clusters : List Cluster) (g : ℕ) (prim : Particle3D) (cl : Cluster)
    (hprim : parts[g]? = some prim)
    (hshape2 : ¬ (prim.shape ≠ 0 ∧ prim.shape ≠ 4))
    (hveto : vetoProcess prim = false)
    (hcl : clusters[g]? = some cl) (hclne : cl.length ≠ 0) :
    groupDemoted parts clusters g = decide (earliestMember parts g ≠ g) := by
  simp only [groupDemoted, hprim, hcl]
  rw [if_neg hshape2]
  simp only [hveto, Bool.false_eq_true, if_false]
  rw [if_neg hclne]
  rfl

/-- Membership in groupMembers parts g means: a valid particle index with
declared group id g. -/
theorem mem_groupMembers_iff (parts : List Particle3D) (g : ℕ) (j : ℕ) :
    j ∈ groupMembers parts g ↔
      j < parts.length ∧ (initGids parts).getD j 0 = g := by
  simp [groupMembers, List.mem_filter, List.mem_range, initGids_length]

/-- groupMembers is sorted in increasing particle id order. -/
theorem groupMembers_pairwise_lt (parts : List Particle3D) (g : ℕ) :
    (groupMembers parts g).Pairwise (fun a b => a < b) :=
  (List.pairwise_lt_range _).filter _

/-- C1: the time-ordering veto. For a shape-gated group g passing the
process/PDG and empty-primary vetoes: the member treated as earliest is a
member attaining the minimal first_step_time, and among exact ties it is
the one with the lowest particle id (stable argmin, no error); if it is not
particle g itself the whole group moves to one common fresh id, otherwise
every member keeps group id g. -/
theorem time_veto_earliest (parts : List Particle3D) (clusters : List Cluster)
    (hWF : WF parts clusters) (g : ℕ) (prim : Particle3D) (cl : Cluster)
    (hmem : g ∈ initGids parts) (hprim : parts[g]? = some prim)
    (hshape : prim.shape = 0 ∨ prim.shape = 4)
    (hveto : vetoProcess prim = false)
    (hcl : clusters[g]? = some cl) (hclne : cl.length ≠ 0) :
    ∃ st, resolveGroups parts clusters = some st ∧
      earliestMember parts g ∈ groupMembers parts g ∧
      (∀ j ∈ groupMembers parts g,
        (parts.getD (earliestMember parts g) default).first_step_t ≤
          (parts.getD j default).first_step_t) ∧
      (∀ j ∈ groupMembers parts g,
        (parts.getD j default).first_step_t =
          (parts.getD (earliestMember parts g) default).first_step_t →
        earliestMember parts g ≤ j) ∧
      (earliestMember parts g ≠ g →
        ∀ j ∈ groupMembers parts g,
          st.gids.getD j 0 = freshId parts clusters g ∧
            clusters.length < freshId parts clusters g) ∧
      (earliestMember parts g = g →
        ∀ j ∈ groupMembers parts g, st.gids.getD j 0 = g) := by
  obtain ⟨st, hres, _, _, hvals⟩ := resolveGroups_spec parts clusters hWF
  have hshape2 : ¬ (prim.shape ≠ 0 ∧ prim.shape ≠ 4) := by
    rcases hshape with h | h <;> simp [h]
  have hD_eq : groupDemoted parts clusters g =
      decide (earliestMember parts g ≠ g) :=
    groupDemoted_time_branch parts clusters g prim cl hprim hshape2 hveto hcl hclne
  have hne_members : groupMembers parts g ≠ [] := by
    obtain ⟨j, hj, hval⟩ := exists_index_of_mem_initGids parts g hmem
    exact List.ne_nil_of_mem ((mem_groupMembers_iff parts g j).mpr ⟨hj, hval⟩)
  have hlen_times : (memberTimes parts g).length = (groupMembers parts g).length :=
    List.length_map _ _
  have htne : memberTimes parts g ≠ [] := by
    rw [memberTimes, Ne, List.map_eq_nil_iff]
    exact hne_members
  have hargmin_lt : npArgminQ (memberTimes parts g) <
      (groupMembers parts g).length := by
    rw [← hlen_times]
    exact npArgminQ_lt_length _ htne
  have hmem_m : earliestMember parts g ∈ groupMembers parts g :=
    getD_mem_of_lt _ _ hargmin_lt 0
  have htimes_getD : ∀ k, k < (groupMembers parts g).length →
      (memberTimes parts g).getD k 0 =
        (parts.getD ((groupMembers parts g).getD k 0) default).first_step_t :=
    fun k hk => getD_map_of_lt _ _ k hk 0 0
  have hidx : ∀ j ∈ groupMembers parts g,
      ∃ k, k < (groupMembers parts g).length ∧
        (groupMembers parts g).getD k 0 = j := by
    intro j hj
    obtain ⟨k, hk, hkval⟩ := List.mem_iff_getElem.mp hj
    exact ⟨k, hk, by rw [List.getD_eq_getElem _ _ hk]; exact hkval⟩
  refine ⟨st, hres, hmem_m, ?_, ?_, ?_, ?_⟩
  · intro j hj
    obtain ⟨k, hk, hkval⟩ := hidx j hj
    have h1 := npArgminQ_le (memberTimes parts g) k (by rw [hlen_times]; exact hk)
    rw [htimes_getD _ hargmin_lt, htimes_getD k hk, hkval] at h1
    exact h1
  · intro j hj heq
    obtain ⟨k, hk, hkval⟩ := hidx j hj
    by_cases hlt : k < npArgminQ (memberTimes parts g)
    · exfalso
      have h2 := npArgminQ_first (memberTimes parts g) k hlt
      rw [htimes_getD _ hargmin_lt, htimes_getD k hk, hkval] at h2
      rw [heq] at h2
      exact lt_irrefl _ h2
    · push_neg at hlt
      rcases eq_or_lt_of_le hlt with heqk | hltk
      · rw [earliestMember, heqk, hkval]
      · have hpl := List.pairwise_iff_get.mp (groupMembers_pairwise_lt parts g)
        have h3 := hpl ⟨npArgminQ (memberTimes parts g), hargmin_lt⟩ ⟨k, hk⟩ hltk
        rw [earliestMember]
        rw [List.getD_eq_getElem _ _ hargmin_lt]
        rw [List.getD_eq_getElem _ _ hk] at hkval
        rw [← hkval]
        exact le_of_lt h3
  · intro hne j hj
    have hD : groupDemoted parts clusters g = true := by
      rw [hD_eq]
      exact decide_eq_true hne
    obtain ⟨hjN, hgj⟩ := (mem_groupMembers_iff parts g j).mp hj
    rw [hvals j hjN, hgj, resolvedGid, if_pos hD]
    exact ⟨rfl, by simp only [freshId]; omega⟩
  · intro heq j hj
    have hD : groupDemoted parts clusters g = false := by
      rw [hD_eq, decide_eq_false_iff_not]
      simp [heq]
    obtain ⟨hjN, hgj⟩ := (mem_groupMembers_iff parts g j).mp hj
    rw [hvals j hjN, hgj, resolvedGid, if_neg (by simp [hD])]

/-- Witness for C1: three showers declared group 0 with times [5, 2, 8]; the
earliest member is particle 1, not the declared primary 0, so the whole
group is demoted to one fresh id above num_clusters. -/
theorem time_veto_earliest_witness :
    ∃ st, resolveGroups
        [⟨0, 0, 0, "primary", 0, 5⟩, ⟨1, 0, 0, "compt", 11, 2⟩,
          ⟨2, 0, 0, "conv", 22, 8⟩]
        [[(((0 : ℤ), (0 : ℤ), (0 : ℤ)), 1)], [(((1 : ℤ), (1 : ℤ), (1 : ℤ)), 1)],
          [(((2 : ℤ), (2 : ℤ), (2 : ℤ)), 1)]] = some st ∧
      earliestMember [⟨0, 0, 0, "primary", 0, 5⟩, ⟨1, 0, 0, "compt", 11, 2⟩,
          ⟨2, 0, 0, "conv", 22, 8⟩] 0 ∈
        groupMembers [⟨0, 0, 0, "primary", 0, 5⟩, ⟨1, 0, 0, "compt", 11, 2⟩,
          ⟨2, 0, 0, "conv", 22, 8⟩] 0 ∧
      (∀ j ∈ groupMembers [⟨0, 0, 0, "primary", 0, 5⟩,
          ⟨1, 0, 0, "compt", 11, 2⟩, ⟨2, 0, 0, "conv", 22, 8⟩] 0,
        (([⟨0, 0, 0, "primary", 0, 5⟩, ⟨1, 0, 0, "compt", 11, 2⟩,
            ⟨2, 0, 0, "conv", 22, 8⟩] : List Particle3D).getD
          (earliestMember [⟨0, 0, 0, "primary", 0, 5⟩,
            ⟨1, 0, 0, "compt", 11, 2⟩, ⟨2, 0, 0, "conv", 22, 8⟩] 0)
          default).first_step_t ≤
        (([⟨0, 0, 0, "primary", 0, 5⟩, ⟨1, 0, 0, "compt", 11, 2⟩,
            ⟨2, 0, 0, "conv", 22, 8⟩] : List Particle3D).getD j
          default).first_step_t) ∧
      (∀ j ∈ groupMembers [⟨0, 0, 0, "primary", 0, 5⟩,
          ⟨1, 0, 0, "compt", 11, 2⟩, ⟨2, 0, 0, "conv", 22, 8⟩] 0,
        (([⟨0, 0, 0, "primary", 0, 5⟩, ⟨1, 0, 0, "compt", 11, 2⟩,
            ⟨2, 0, 0, "conv", 22, 8⟩] : List Particle3D).getD j
          default).first_step_t =
          (([⟨0, 0, 0, "primary", 0, 5⟩, ⟨1, 0, 0, "compt", 11, 2⟩,
              ⟨2, 0, 0, "conv", 22, 8⟩] : List Particle3D).getD
            (earliestMember [⟨0, 0, 0, "primary", 0, 5⟩,
              ⟨1, 0, 0, "compt", 11, 2⟩, ⟨2, 0, 0, "conv", 22, 8⟩] 0)
            default).first_step_t →
        earliestMember [⟨0, 0, 0, "primary", 0, 5⟩, ⟨1, 0, 0, "compt", 11, 2⟩,
          ⟨2, 0, 0, "conv", 22, 8⟩] 0 ≤ j) ∧
      (earliestMember [⟨0, 0, 0, "primary", 0, 5⟩, ⟨1, 0, 0, "compt", 11, 2⟩,
          ⟨2, 0, 0, "conv", 22, 8⟩] 0 ≠ 0 →
        ∀ j ∈ groupMembers [⟨0, 0, 0, "primary", 0, 5⟩,
            ⟨1, 0, 0, "compt", 11, 2⟩, ⟨2, 0, 0, "conv", 22, 8⟩] 0,
          st.gids.getD j 0 = freshId [⟨0, 0, 0, "primary", 0, 5⟩,
            ⟨1, 0, 0, "compt", 11, 2⟩, ⟨2, 0, 0, "conv", 22, 8⟩]
            [[(((0 : ℤ), (0 : ℤ), (0 : ℤ)), 1)],
              [(((1 : ℤ), (1 : ℤ), (1 : ℤ)), 1)],
              [(((2 : ℤ), (2 : ℤ), (2 : ℤ)), 1)]] 0 ∧
            ([[(((0 : ℤ), (0 : ℤ), (0 : ℤ)), 1)],
              [(((1 : ℤ), (1 : ℤ), (1 : ℤ)), 1)],
              [(((2 : ℤ), (2 : ℤ), (2 : ℤ)), 1)]] : List Cluster).length <
              freshId [⟨0, 0, 0, "primary", 0, 5⟩, ⟨1, 0, 0, "compt", 11, 2⟩,
                ⟨2, 0, 0, "conv", 22, 8⟩]
                [[(((0 : ℤ), (0 : ℤ), (0 : ℤ)), 1)],
                  [(((1 : ℤ), (1 : ℤ), (1 : ℤ)), 1)],
                  [(((2 : ℤ), (2 : ℤ), (2 : ℤ)), 1)]] 0) ∧
      (earliestMember [⟨0, 0, 0, "primary", 0, 5⟩, ⟨1, 0, 0, "compt", 11, 2⟩,
          ⟨2, 0, 0, "conv", 22, 8⟩] 0 = 0 →
        ∀ j ∈ groupMembers [⟨0, 0, 0, "primary", 0, 5⟩,
            ⟨1, 0, 0, "compt", 11, 2⟩, ⟨2, 0, 0, "conv", 22, 8⟩] 0,
          st.gids.getD j 0 = 0) :=
  time_veto_earliest _ _ (by decide) 0 ⟨0, 0, 0, "primary", 0, 5⟩
    [(((0 : ℤ), (0 : ℤ), (0 : ℤ)), 1)] (by decide) (by decide) (Or.inl rfl)
    (by decide) (by decide) (by decide)

/-! ### C5: empty events -/

theorem optMap_eq_none {α β : Type} (f : α → Option β) (l : List α) (a : α)
    (ha : a ∈ l) (hfa : f a = none) : optMap f l = none := by
  induction l with
  | nil => cases ha
  | cons b t ih =>
    rcases List.mem_cons.mp ha with rfl | ht
    · simp [optMap, hfa]
    · simp only [optMap]
      cases hb : f b with
      | none => rfl
      | some v => simp [ih ht]

theorem optMap_eq_some_nil {α β : Type} (f : α → Option (List β)) (l : List α)
    (h : ∀ a ∈ l, f a = some []) :
    optMap f l = some (l.map (fun _ => [])) := by
  induction l with
  | nil => rfl
  | cons b t ih =>
    simp only [optMap, h b (by simp), List.map_cons]
    rw [ih (fun a ha => h a (List.mem_cons_of_mem _ ha))]
    rfl

/-- Counterexample for C5: on an event with zero particles and zero voxels
parse_cluster3d_full does not return an empty result; it fails
(np.concatenate of an empty list raises ValueError). -/
theorem parse_cluster3d_full_empty_counterexample :
    parse_cluster3d_full [] [] = none ∧
      ∀ out, ¬ parse_cluster3d_full [] [] = some out := by
  have h0 : parse_cluster3d_full [] [] = none := by decide
  exact ⟨h0, fun out h => by rw [h0] at h; cases h⟩

/-- C5 amended: for an event with zero particles, or whose clusters are all
empty, parse_cluster3d_full raises (returns no result) rather than
returning empty arrays. -/
theorem parse_cluster3d_full_empty_raises (parts : List Particle3D)
    (clusters : List Cluster)
    (h : parts = [] ∨ ∀ cl ∈ clusters, cl = []) :
    parse_cluster3d_full parts clusters = none := by
  rw [parse_cluster3d_full]
  cases hres : resolveGroups parts clusters with
  | none => rfl
  | some st =>
    simp only [Option.bind_eq_bind, Option.some_bind]
    by_cases hall : ∀ cl ∈ clusters, cl = []
    · have hmap : optMap (fun ic => clusterRows parts st.gids ic.1 ic.2)
          clusters.enum = some (clusters.enum.map (fun _ => [])) := by
        refine optMap_eq_some_nil _ _ (fun ic hic => ?_)
        have hsnd : ic.2 ∈ clusters := by
          have h1 : ic.2 ∈ clusters.enum.map Prod.snd :=
            List.mem_map_of_mem Prod.snd hic
          rw [List.enum_map_snd] at h1
          exact h1
        rw [hall ic.2 hsnd]
        rfl
      rw [hmap]
      simp only [Option.some_bind]
      rw [if_pos]
      simp [List.flatten_eq_nil_iff]
    · rcases h with rfl | h2
      · push_neg at hall
        obtain ⟨cl, hcl, hclne⟩ := hall
        obtain ⟨i, hi, hival⟩ := List.mem_iff_getElem.mp hcl
        have hmem : (i, cl) ∈ (List.enum ([] : List Cluster)) ∨
            (i, cl) ∈ clusters.enum := by
          right
          rw [← hival]
          exact List.mem_enum_iff_getElem?.mpr (List.getElem?_eq_getElem hi)
        have hmem2 : (i, cl) ∈ clusters.enum := by
          rcases hmem with h3 | h3
          · simp at h3
          · exact h3
        have hrow : clusterRows [] st.gids i cl = none := by
          rw [clusterRows, if_neg (by simpa [List.length_eq_zero] using hclne)]
          simp
        rw [optMap_eq_none _ _ _ hmem2 hrow]
        rfl
      · exact absurd h2 hall

/-- Witness for the amended C5 at the zero-particle zero-cluster event. -/
theorem parse_cluster3d_full_empty_raises_witness :
    parse_cluster3d_full [] [] = none :=
  parse_cluster3d_full_empty_raises [] [] (Or.inl rfl)

/-! ### C7: the fragment sparse parser -/

theorem firstIdx_spec (vs : List Voxel) (c : Voxel) (hc : c ∈ vs) :
    firstIdx vs c < vs.length ∧ vs.getD (firstIdx vs c) default = c ∧
      ∀ i, i < firstIdx vs c → vs.getD i default ≠ c := by
  induction vs with
  | nil => cases hc
  | cons a t ih =>
    rw [firstIdx, List.findIdx_cons]
    by_cases hac : a = c
    · subst hac
      simp
    · have hct : c ∈ t := by
        rcases List.mem_cons.mp hc with h | h
        · exact absurd h.symm hac
        · exact h
      obtain ⟨ih1, ih2, ih3⟩ := ih hct
      rw [firstIdx] at ih1 ih2 ih3
      rw [decide_eq_false hac]
      simp only [Bool.cond_false]
      refine ⟨by simpa using ih1, ?_, ?_⟩
      · rw [List.getD_cons_succ]
        exact ih2
      · intro i hi
        cases i with
        | zero =>
          rw [List.getD_cons_zero]
          exact hac
        | succ i2 =>
          rw [List.getD_cons_succ]
          exact ih3 i2 (by omega)

theorem npUniqueRows_map_fst (vs : List Voxel) :
    (npUniqueRows vs).map Prod.fst = List.insertionSort cLe vs.dedup := by
  rw [npUniqueRows, List.map_map]
  exact List.map_id _

theorem lexLe_ne_imp_lt (a b : Voxel) (h : lexLe a b) (hne : a ≠ b) :
    lexLt a b := by
  rcases h with h | h
  · exact h
  · exact absurd h hne

/-- C7: parse_sparse3d_fragment returns rows whose coordinates are strictly
lexicographically sorted (hence duplicate free); every kept row has value
< 4; and every kept row is exactly the first occurrence of its coordinate
in the lexsorted input (first wins, not an aggregate). -/
theorem parse_sparse3d_fragment_spec (input : List (Voxel × ℚ)) :
    ((parse_sparse3d_fragment input).map Prod.fst).Pairwise lexLt ∧
    (∀ cv ∈ parse_sparse3d_fragment input, cv.2 < 4) ∧
    (∀ cv ∈ parse_sparse3d_fragment input,
      ∃ k, k < (List.insertionSort pairLe input).length ∧
        (List.insertionSort pairLe input).getD k default = cv ∧
        ∀ i, i < k →
          ((List.insertionSort pairLe input).getD i default).1 ≠ cv.1) := by
  have hout : parse_sparse3d_fragment input = List.insertionSort pairLe
      (((npUniqueRows ((List.insertionSort pairLe input).map
        (fun r => r.1))).map (fun ci => (ci.1,
          ((List.insertionSort pairLe input).getD ci.2 default).2))).filter
        (fun cv => decide (cv.2 < 4))) := rfl
  have hWfst : (((npUniqueRows ((List.insertionSort pairLe input).map
      (fun r => r.1))).map (fun ci => (ci.1,
        ((List.insertionSort pairLe input).getD ci.2 default).2))).map
      Prod.fst) = List.insertionSort cLe
        (((List.insertionSort pairLe input).map (fun r => r.1)).dedup) := by
    rw [List.map_map]
    exact npUniqueRows_map_fst _
  have hWnodup : ((((npUniqueRows ((List.insertionSort pairLe input).map
      (fun r => r.1))).map (fun ci => (ci.1,
        ((List.insertionSort pairLe input).getD ci.2 default).2)))).map
      Prod.fst).Nodup := by
    rw [hWfst]
    exact ((List.perm_insertionSort cLe _).nodup_iff).mpr
      (List.nodup_dedup _)
  have hMnodup : ((((npUniqueRows ((List.insertionSort pairLe input).map
      (fun r => r.1))).map (fun ci => (ci.1,
        ((List.insertionSort pairLe input).getD ci.2 default).2))).filter
        (fun cv => decide (cv.2 < 4))).map Prod.fst).Nodup :=
    ((List.filter_sublist _).map Prod.fst).nodup hWnodup
  have houtnodup : ((parse_sparse3d_fragment input).map Prod.fst).Nodup := by
    rw [hout]
    exact (((List.perm_insertionSort pairLe _).map Prod.fst).nodup_iff).mpr
      hMnodup
  have houtsorted : (parse_sparse3d_fragment input).Pairwise pairLe := by
    rw [hout]
    exact List.sorted_insertionSort pairLe _
  refine ⟨?_, ?_, ?_⟩
  · have h1 : ((parse_sparse3d_fragment input).map Prod.fst).Pairwise lexLe :=
      List.pairwise_map.mpr (houtsorted.imp (fun hab => hab))
    have h2 : ((parse_sparse3d_fragment input).map Prod.fst).Pairwise
        (fun a b => a ≠ b) := houtnodup
    exact (List.Pairwise.and h1 h2).imp
      (fun hab => lexLe_ne_imp_lt _ _ hab.1 hab.2)
  · intro cv hcv
    rw [hout] at hcv
    have hM := (List.perm_insertionSort pairLe _).mem_iff.mp hcv
    have := List.of_mem_filter hM
    simpa using this
  · intro cv hcv
    rw [hout] at hcv
    have hM := (List.perm_insertionSort pairLe _).mem_iff.mp hcv
    have hW := List.mem_of_mem_filter hM
    obtain ⟨ci, hci, hcieq⟩ := List.mem_map.mp hW
    obtain ⟨c, hcmem, hceq⟩ := List.mem_map.mp hci
    have hcvs : c ∈ (List.insertionSort pairLe input).map (fun r => r.1) := by
      have h3 := (List.perm_insertionSort cLe _).mem_iff.mp hcmem
      exact List.mem_dedup.mp h3
    obtain ⟨hk1, hk2, hk3⟩ := firstIdx_spec _ c hcvs
    rw [List.length_map] at hk1
    refine ⟨firstIdx ((List.insertionSort pairLe input).map (fun r => r.1)) c,
      hk1, ?_, ?_⟩
    · have h4 : ((List.insertionSort pairLe input).map (fun r => r.1)).getD
          (firstIdx ((List.insertionSort pairLe input).map (fun r => r.1)) c)
          default =
          ((List.insertionSort pairLe input).getD
            (firstIdx ((List.insertionSort pairLe input).map (fun r => r.1)) c)
            default).1 :=
        getD_map_of_lt _ _ _ hk1 default default
      rw [h4] at hk2
      rw [Prod.ext_iff]
      constructor
      · rw [← hcieq, ← hceq]
        exact hk2
      · rw [← hcieq, ← hceq]
    · intro i hi
      have hilt : i < (List.insertionSort pairLe input).length := by
        have := hk1
        omega
      have h5 := hk3 i hi
      have h6 : ((List.insertionSort pairLe input).map (fun r => r.1)).getD i
          default = ((List.insertionSort pairLe input).getD i default).1 :=
        getD_map_of_lt _ _ _ hilt default default
      rw [h6] at h5
      rw [← hcieq, ← hceq]
      exact h5

/-! ### C8: the per-voxel neutrino flag -/

/-- C8: in the output of parse_cluster3d_full_extended2, voxels of resolved
group 0 carry the interaction id interOf 0; when some voxel belongs to
group 0, every voxel's neutrino flag is 1 exactly when its interaction id
equals interOf 0 (the id of the interaction containing group 0); when no
voxel belongs to group 0, every flag is 0. -/
theorem nu_flag_spec (interOf : ℕ → ℤ) (parts : List Particle3D)
    (clusters : List Cluster) (ext : List (Voxel × ExtFeat))
    (h : parse_cluster3d_full_extended2 interOf parts clusters = some ext) :
    (∀ e ∈ ext, e.2.group_id = 0 → e.2.inter_id = interOf 0) ∧
    ((∃ e ∈ ext, e.2.group_id = 0) →
      ∀ e ∈ ext, e.2.nu_id = if e.2.inter_id = interOf 0 then 1 else 0) ∧
    ((∀ e ∈ ext, e.2.group_id ≠ 0) → ∀ e ∈ ext, e.2.nu_id = 0) := by
  rw [parse_cluster3d_full_extended2] at h
  cases hrows : parse_cluster3d_full parts clusters with
  | none =>
    rw [hrows] at h
    cases h
  | some rows =>
    rw [hrows] at h
    simp only [Option.bind_eq_bind, Option.some_bind, Option.some.injEq] at h
    subst h
    have hfeats_len : (rows.map (fun r => r.2)).length = rows.length :=
      List.length_map _ _
    have hinter_len : (get_interaction_id interOf
        (rows.map (fun r => r.2))).length = rows.length := by
      rw [get_interaction_id, List.length_map, List.length_map]
    have hzip_len : ((rows.map (fun r => r.2)).zip
        (get_interaction_id interOf (rows.map (fun r => r.2)))).length =
        rows.length := by
      rw [List.length_zip _ _, hfeats_len, hinter_len, min_self]
    have hinter_getD : ∀ i, i < rows.length →
        (get_interaction_id interOf (rows.map (fun r => r.2))).getD i 0 =
          interOf ((rows.getD i default).2.group_id) := by
      intro i hi
      rw [get_interaction_id, List.map_map]
      exact getD_map_of_lt _ _ i hi 0 default
    have hext_mem : ∀ e ∈ extendRows interOf rows,
        ∃ i, i < rows.length ∧ e = ((rows.getD i default).1,
          ExtFeat.mk (rows.getD i default).2.value
            (rows.getD i default).2.group_id
            ((get_interaction_id interOf (rows.map (fun r => r.2))).getD i 0)
            (rows.getD i default).2.sem_type
            ((get_nu_id (rows.map (fun r => r.2))
              (get_interaction_id interOf (rows.map (fun r => r.2)))).getD
                i 0)) := by
      intro e he
      rw [extendRows] at he
      obtain ⟨i, hi, hieq⟩ := List.mem_map.mp he
      exact ⟨i, List.mem_range.mp hi, hieq.symm⟩
    have hbuild_mem : ∀ i, i < rows.length →
        ((rows.getD i default).1,
          ExtFeat.mk (rows.getD i default).2.value
            (rows.getD i default).2.group_id
            ((get_interaction_id interOf (rows.map (fun r => r.2))).getD i 0)
            (rows.getD i default).2.sem_type
            ((get_nu_id (rows.map (fun r => r.2))
              (get_interaction_id interOf (rows.map (fun r => r.2)))).getD
                i 0)) ∈ extendRows interOf rows := by
      intro i hi
      rw [extendRows]
      exact List.mem_map.mpr ⟨i, List.mem_range.mpr hi, rfl⟩
    refine ⟨?_, ?_, ?_⟩
    · intro e he hg0
      obtain ⟨i, hi, rfl⟩ := hext_mem e he
      simp only at hg0 ⊢
      rw [hinter_getD i hi, hg0]
    · intro hex e he
      obtain ⟨e0, he0, hg0⟩ := hex
      obtain ⟨i0, hi0, rfl⟩ := hext_mem e0 he0
      simp only at hg0
      obtain ⟨i, hi, rfl⟩ := hext_mem e he
      simp only
      cases hfind : ((rows.map (fun r => r.2)).zip
          (get_interaction_id interOf (rows.map (fun r => r.2)))).find?
            (fun fi => decide (fi.1.group_id = 0)) with
      | none =>
        exfalso
        have hnone := List.find?_eq_none.mp hfind
        have hkz : i0 < ((rows.map (fun r => r.2)).zip
            (get_interaction_id interOf (rows.map (fun r => r.2)))).length := by
          rw [hzip_len]
          exact hi0
        have hmem : ((rows.map (fun r => r.2)).zip
            (get_interaction_id interOf (rows.map (fun r => r.2)))).getD i0
              (default, 0) ∈
            ((rows.map (fun r => r.2)).zip
              (get_interaction_id interOf (rows.map (fun r => r.2)))) :=
          getD_mem_of_lt _ i0 hkz _
        have h2 := hnone _ hmem
        rw [getD_zip_pair _ _ i0 default 0 (by rw [hfeats_len]; exact hi0)
          (by rw [hinter_len]; exact hi0)] at h2
        apply h2
        simp only [decide_eq_true_eq]
        have h3 : (rows.map (fun r => r.2)).getD i0 default =
            (rows.getD i0 default).2 :=
          getD_map_of_lt _ _ i0 hi0 default default
        show ((rows.map (fun r => r.2)).getD i0 (default : FeatRow)).group_id = 0
        rw [h3]
        exact hg0
      | some fi0 =>
        have hnu : (get_nu_id (rows.map (fun r => r.2))
            (get_interaction_id interOf (rows.map (fun r => r.2)))).getD i 0 =
            if (get_interaction_id interOf
              (rows.map (fun r => r.2))).getD i 0 = fi0.2 then 1 else 0 := by
          rw [get_nu_id, hfind]
          exact getD_map_of_lt _ _ i (by rw [hinter_len]; exact hi) 0 0
        have hfi2 : fi0.2 = interOf 0 := by
          have hp := List.find?_some hfind
          have hmem := List.mem_of_find?_eq_some hfind
          obtain ⟨k, hk, hkval⟩ := List.mem_iff_getElem.mp hmem
          have hkr : k < rows.length := by rw [hzip_len] at hk; exact hk
          have hkd : ((rows.map (fun r => r.2)).zip
              (get_interaction_id interOf (rows.map (fun r => r.2)))).getD k
                (default, 0) = fi0 := by
            rw [List.getD_eq_getElem _ _ hk]
            exact hkval
          rw [getD_zip_pair _ _ k default 0 (by rw [hfeats_len]; exact hkr)
            (by rw [hinter_len]; exact hkr)] at hkd
          have h1 : fi0.1 = (rows.getD k default).2 := by
            rw [← hkd]
            exact getD_map_of_lt _ _ k hkr default default
          have h2 : fi0.2 = (get_interaction_id interOf
              (rows.map (fun r => r.2))).getD k 0 := by
            rw [← hkd]
          have h3 : fi0.1.group_id = 0 := by
            simpa using hp
          rw [h2, hinter_getD k hkr, ← h1, h3]
        rw [hnu, hfi2]
    · intro hall e he
      obtain ⟨i, hi, rfl⟩ := hext_mem e he
      simp only
      cases hfind : ((rows.map (fun r => r.2)).zip
          (get_interaction_id interOf (rows.map (fun r => r.2)))).find?
            (fun fi => decide (fi.1.group_id = 0)) with
      | none =>
        rw [get_nu_id, hfind]
        exact getD_map_of_lt _ _ i (by rw [hinter_len]; exact hi) 0 0
      | some fi0 =>
        exfalso
        have hp := List.find?_some hfind
        have hmem := List.mem_of_find?_eq_some hfind
        obtain ⟨k, hk, hkval⟩ := List.mem_iff_getElem.mp hmem
        have hkr : k < rows.length := by rw [hzip_len] at hk; exact hk
        have hkd : ((rows.map (fun r => r.2)).zip
            (get_interaction_id interOf (rows.map (fun r => r.2)))).getD k
              (default, 0) = fi0 := by
          rw [List.getD_eq_getElem _ _ hk]
          exact hkval
        rw [getD_zip_pair _ _ k default 0 (by rw [hfeats_len]; exact hkr)
          (by rw [hinter_len]; exact hkr)] at hkd
        have h1 : fi0.1 = (rows.getD k default).2 := by
          rw [← hkd]
          exact getD_map_of_lt _ _ k hkr default default
        have h3 : fi0.1.group_id = 0 := by simpa using hp
        have h4 := hall _ (hbuild_mem k hkr)
        simp only at h4
        rw [← h1, h3] at h4
        exact h4 rfl

/-- Witness for C8: a kept shower group 0 whose two voxels both carry
interaction id interOf 0 = 10 and neutrino flag 1. -/
theorem nu_flag_spec_witness :
    (∀ e ∈ ([((((0 : ℤ), (0 : ℤ), (0 : ℤ))), ExtFeat.mk 1 0 10 0 1),
        ((((1 : ℤ), (1 : ℤ), (1 : ℤ))), ExtFeat.mk 1 0 10 0 1)] :
          List (Voxel × ExtFeat)),
      e.2.group_id = 0 → e.2.inter_id = (fun g => (g : ℤ) + 10) 0) ∧
    ((∃ e ∈ ([((((0 : ℤ), (0 : ℤ), (0 : ℤ))), ExtFeat.mk 1 0 10 0 1),
        ((((1 : ℤ), (1 : ℤ), (1 : ℤ))), ExtFeat.mk 1 0 10 0 1)] :
          List (Voxel × ExtFeat)), e.2.group_id = 0) →
      ∀ e ∈ ([((((0 : ℤ), (0 : ℤ), (0 : ℤ))), ExtFeat.mk 1 0 10 0 1),
        ((((1 : ℤ), (1 : ℤ), (1 : ℤ))), ExtFeat.mk 1 0 10 0 1)] :
          List (Voxel × ExtFeat)),
        e.2.nu_id = if e.2.inter_id = (fun g => (g : ℤ) + 10) 0 then 1 else 0) ∧
    ((∀ e ∈ ([((((0 : ℤ), (0 : ℤ), (0 : ℤ))), ExtFeat.mk 1 0 10 0 1),
        ((((1 : ℤ), (1 : ℤ), (1 : ℤ))), ExtFeat.mk 1 0 10 0 1)] :
          List (Voxel × ExtFeat)), e.2.group_id ≠ 0) →
      ∀ e ∈ ([((((0 : ℤ), (0 : ℤ), (0 : ℤ))), ExtFeat.mk 1 0 10 0 1),
        ((((1 : ℤ), (1 : ℤ), (1 : ℤ))), ExtFeat.mk 1 0 10 0 1)] :
          List (Voxel × ExtFeat)), e.2.nu_id = 0) :=
  nu_flag_spec (fun g => (g : ℤ) + 10)
    [⟨0, 0, 0, "primary", 0, 1⟩, ⟨1, 0, 0, "compt", 11, 2⟩]
    [[(((0 : ℤ), (0 : ℤ), (0 : ℤ)), 1)], [(((1 : ℤ), (1 : ℤ), (1 : ℤ)), 1)]]
    _ (by decide)

/-! ### C6: the clean-full parser and the semantic override -/

theorem applyMask_sublist {α : Type} :
    ∀ (mask : List Bool) (l : List α), List.Sublist (applyMask mask l) l := by
  intro mask
  induction mask with
  | nil =>
    intro l
    cases l <;> simp [applyMask]
  | cons b bs ih =>
    intro l
    cases l with
    | nil => simp [applyMask]
    | cons x xs =>
      cases b with
      | true =>
        rw [applyMask]
        exact List.Sublist.cons₂ x (ih xs)
      | false =>
        rw [applyMask]
        exact List.Sublist.cons x (ih xs)

theorem applyMask_map_filter {α : Type} (q : α → Bool) :
    ∀ (l : List α), applyMask (l.map q) l = l.filter q := by
  intro l
  induction l with
  | nil => rfl
  | cons x xs ih =>
    rw [List.map_cons]
    cases hq : q x with
    | true =>
      rw [applyMask, List.filter_cons_of_pos hq, ih]
    | false =>
      rw [applyMask, List.filter_cons_of_neg (by simp [hq]), ih]

theorem firstOcc_nodup {α : Type} :
    ∀ (l : List (Voxel × α)) (seen : List Voxel),
      ((applyMask (firstOccAux seen (l.map Prod.fst)) l).map Prod.fst).Nodup ∧
      ∀ c ∈ (applyMask (firstOccAux seen (l.map Prod.fst)) l).map Prod.fst,
        c ∉ seen := by
  intro l
  induction l with
  | nil =>
    intro seen
    simp [firstOccAux, applyMask]
  | cons x xs ih =>
    intro seen
    rw [List.map_cons, firstOccAux]
    cases hd : decide (x.1 ∉ seen) with
    | true =>
      rw [applyMask, List.map_cons]
      obtain ⟨ihn, ihs⟩ := ih (x.1 :: seen)
      have hx_not : x.1 ∉ seen := of_decide_eq_true hd
      constructor
      · rw [List.nodup_cons]
        refine ⟨?_, ihn⟩
        intro hmem
        exact (ihs x.1 hmem) (by simp)
      · intro c hc
        rcases List.mem_cons.mp hc with rfl | hc2
        · exact hx_not
        · intro hcs
          exact (ihs c hc2) (List.mem_cons_of_mem _ hcs)
    | false =>
      rw [applyMask]
      obtain ⟨ihn, ihs⟩ := ih (x.1 :: seen)
      refine ⟨ihn, fun c hc hcs => (ihs c hc) (List.mem_cons_of_mem _ hcs)⟩

theorem dedupStage_sublist (rows : List (Voxel × FeatRow)) :
    List.Sublist (dedupStage rows) (List.insertionSort pairLe rows) :=
  applyMask_sublist _ _

theorem dedupStage_nodup (rows : List (Voxel × FeatRow)) :
    ((dedupStage rows).map (fun r => r.1)).Nodup :=
  (firstOcc_nodup (List.insertionSort pairLe rows) []).1

theorem cleanPipeline_eq_filter (rows : List (Voxel × FeatRow))
    (img : List (Voxel × ℚ)) :
    cleanPipeline rows img = (dedupStage rows).filter
      (fun r => decide (r.1 ∈ (List.insertionSort pairLe img).map
        (fun r => r.1))) :=
  calc cleanPipeline rows img
      = applyMask (((dedupStage rows).map (fun r => r.1)).map
          (fun c => decide (c ∈ (List.insertionSort pairLe img).map
            (fun r => r.1)))) (dedupStage rows) := rfl
    _ = applyMask ((dedupStage rows).map (fun r =>
          decide (r.1 ∈ (List.insertionSort pairLe img).map (fun r => r.1))))
          (dedupStage rows) := by rw [List.map_map]; rfl
    _ = (dedupStage rows).filter (fun r =>
          decide (r.1 ∈ (List.insertionSort pairLe img).map (fun r => r.1))) :=
        applyMask_map_filter _ _

theorem cleanPipeline_sorted (rows : List (Voxel × FeatRow))
    (img : List (Voxel × ℚ)) :
    (cleanPipeline rows img).Pairwise pairLe := by
  rw [cleanPipeline_eq_filter]
  refine List.Pairwise.sublist ?_ (List.sorted_insertionSort pairLe rows)
  exact (List.filter_sublist _).trans (dedupStage_sublist rows)

theorem cleanPipeline_nodup (rows : List (Voxel × FeatRow))
    (img : List (Voxel × ℚ)) :
    ((cleanPipeline rows img).map (fun r => r.1)).Nodup := by
  rw [cleanPipeline_eq_filter]
  exact ((List.filter_sublist _).map _).nodup (dedupStage_nodup rows)

theorem cleanPipeline_mem_img (rows : List (Voxel × FeatRow))
    (img : List (Voxel × ℚ)) (r : Voxel × FeatRow)
    (hr : r ∈ cleanPipeline rows img) :
    r.1 ∈ (List.insertionSort pairLe img).map (fun r => r.1) := by
  rw [cleanPipeline_eq_filter] at hr
  have := List.of_mem_filter hr
  exact of_decide_eq_true this

theorem zipWith_overrideSem_map_fst :
    ∀ (l1 : List (Voxel × FeatRow)) (l2 : List (Voxel × ℚ)),
      l1.length ≤ l2.length →
      (List.zipWith overrideSem l1 l2).map (fun r => r.1) =
        l1.map (fun r => r.1) := by
  intro l1
  induction l1 with
  | nil =>
    intro l2 h
    rfl
  | cons a t ih =>
    intro l2 h
    cases l2 with
    | nil => simp at h
    | cons b tb =>
      simp only [List.zipWith_cons_cons, List.map_cons]
      rw [ih tb (by simpa using h)]
      rfl

/-- C6: whenever parse_cluster3d_clean_full returns, the semantic-type
column of every output row is the value the ground-truth semantic tensor
carries at that row's voxel coordinate (the pair (coordinate, sem_type) is
a row of the semantic tensor input), overriding the cluster tensor's
semantic type; and the output has exactly one row per deduplicated,
image-filtered voxel, with the same coordinates. -/
theorem clean_full_override (parts : List Particle3D) (clusters : List Cluster)
    (img : List (Voxel × ℚ)) (out : List (Voxel × FeatRow))
    (h : parse_cluster3d_clean_full parts clusters img = some out) :
    (∀ r ∈ out, (r.1, r.2.sem_type) ∈ img) ∧
    ∃ rows, parse_cluster3d_full parts clusters = some rows ∧
      out.length = (cleanPipeline rows img).length ∧
      out.map (fun r => r.1) = (cleanPipeline rows img).map (fun r => r.1) := by
  rw [parse_cluster3d_clean_full] at h
  cases hrows : parse_cluster3d_full parts clusters with
  | none =>
    rw [hrows] at h
    cases h
  | some rows =>
    rw [hrows] at h
    simp only [Option.bind_eq_bind, Option.some_bind] at h
    by_cases hlen : (List.insertionSort pairLe img).length =
        (cleanPipeline rows img).length
    · rw [if_pos hlen, Option.some.injEq] at h
      subst h
      have hA_len : ((cleanPipeline rows img).map (fun r => r.1)).length =
          (cleanPipeline rows img).length := List.length_map _ _
      have hB_len : ((List.insertionSort pairLe img).map (fun r => r.1)).length =
          (List.insertionSort pairLe img).length := List.length_map _ _
      have hAsubB : (cleanPipeline rows img).map (fun r => r.1) ⊆
          (List.insertionSort pairLe img).map (fun r => r.1) := by
        intro c hc
        obtain ⟨r, hr, hrval⟩ := List.mem_map.mp hc
        rw [← hrval]
        exact cleanPipeline_mem_img rows img r hr
      have hAnodup := cleanPipeline_nodup rows img
      have hsubdedup : (cleanPipeline rows img).map (fun r => r.1) ⊆
          ((List.insertionSort pairLe img).map (fun r => r.1)).dedup :=
        fun c hc => List.mem_dedup.mpr (hAsubB hc)
      have hsubperm := hAnodup.subperm hsubdedup
      have h1 := hsubperm.length_le
      have h2 := (List.dedup_sublist
        ((List.insertionSort pairLe img).map (fun r => r.1))).length_le
      have h3 : (((List.insertionSort pairLe img).map (fun r => r.1)).dedup).length =
          (((List.insertionSort pairLe img)).map (fun r => r.1)).length := by
        omega
      have hBnodup : ((List.insertionSort pairLe img).map (fun r => r.1)).Nodup := by
        rw [← List.dedup_eq_self]
        exact (List.dedup_sublist _).eq_of_length h3
      have hperm : ((cleanPipeline rows img).map (fun r => r.1)).Perm
          ((List.insertionSort pairLe img).map (fun r => r.1)) :=
        (hAnodup.subperm hAsubB).perm_of_length_le (by omega)
      have hAsorted : ((cleanPipeline rows img).map (fun r => r.1)).Pairwise lexLe :=
        List.pairwise_map.mpr ((cleanPipeline_sorted rows img).imp (fun hx => hx))
      have hBsorted : ((List.insertionSort pairLe img).map (fun r => r.1)).Pairwise
          lexLe :=
        List.pairwise_map.mpr
          ((List.sorted_insertionSort pairLe img).imp (fun hx => hx))
      have hAlt : ((cleanPipeline rows img).map (fun r => r.1)).Pairwise lexLt :=
        (List.Pairwise.and hAsorted hAnodup).imp
          (fun hab => lexLe_ne_imp_lt _ _ hab.1 hab.2)
      have hBlt : ((List.insertionSort pairLe img).map (fun r => r.1)).Pairwise
          lexLt :=
        (List.Pairwise.and hBsorted hBnodup).imp
          (fun hab => lexLe_ne_imp_lt _ _ hab.1 hab.2)
      have hAeqB : (cleanPipeline rows img).map (fun r => r.1) =
          (List.insertionSort pairLe img).map (fun r => r.1) :=
        List.eq_of_perm_of_sorted hperm hAlt hBlt
      have hout_len : (List.zipWith overrideSem (cleanPipeline rows img)
          (List.insertionSort pairLe img)).length =
          (cleanPipeline rows img).length := by
        rw [List.length_zipWith, ← hlen, min_self]
      refine ⟨?_, rows, rfl, hout_len, ?_⟩
      · intro r hr
        obtain ⟨i, hi, hival⟩ := List.mem_iff_getElem.mp hr
        have hivd : (List.zipWith overrideSem (cleanPipeline rows img)
            (List.insertionSort pairLe img)).getD i
              (default, (default : FeatRow)) = r := by
          rw [List.getD_eq_getElem _ _ hi]
          exact hival
        rw [hout_len] at hi
        have hiB : i < (List.insertionSort pairLe img).length := by omega
        rw [getD_zipWith_pair overrideSem _ _ i default default
          (default, (default : FeatRow)) hi hiB] at hivd
        have hcoord : ((cleanPipeline rows img).getD i default).1 =
            ((List.insertionSort pairLe img).getD i default).1 := by
          have hA_i : ((cleanPipeline rows img).map (fun r => r.1)).getD i
              default =
              ((List.insertionSort pairLe img).map (fun r => r.1)).getD i
                default := by
            rw [hAeqB]
          rw [getD_map_of_lt _ _ i hi default default,
            getD_map_of_lt _ _ i hiB default default] at hA_i
          exact hA_i
        rw [← hivd]
        have hpair : ((overrideSem ((cleanPipeline rows img).getD i default)
            ((List.insertionSort pairLe img).getD i default)).1,
            (overrideSem ((cleanPipeline rows img).getD i default)
              ((List.insertionSort pairLe img).getD i default)).2.sem_type) =
            (List.insertionSort pairLe img).getD i default := by
          rw [Prod.ext_iff]
          exact ⟨hcoord, rfl⟩
        rw [hpair]
        exact ((List.perm_insertionSort pairLe img).mem_iff).mp
          (getD_mem_of_lt _ i hiB default)
      · exact zipWith_overrideSem_map_fst _ _ (le_of_eq hlen.symm)
    · rw [if_neg hlen] at h
      by_cases h1 : (List.insertionSort pairLe img).length = 1
      · rw [if_pos h1, Option.some.injEq] at h
        subst h
        obtain ⟨iv, hiv⟩ := List.length_eq_one.mp h1
        refine ⟨?_, rows, rfl, List.length_map _ _, by rw [List.map_map]; rfl⟩
        intro r hr
        obtain ⟨g0, hg0, hg0val⟩ := List.mem_map.mp hr
        have hmem := cleanPipeline_mem_img rows img g0 hg0
        rw [hiv] at hmem
        simp only [List.map_cons, List.map_nil, List.mem_cons,
          List.not_mem_nil, or_false] at hmem
        have hgetD : (List.insertionSort pairLe img).getD 0 default = iv := by
          rw [hiv]
          rfl
        rw [← hg0val, hgetD]
        have hpair : ((overrideSem g0 iv).1, (overrideSem g0 iv).2.sem_type) =
            iv := by
          rw [Prod.ext_iff]
          exact ⟨hmem, rfl⟩
        rw [hpair]
        have : iv ∈ List.insertionSort pairLe img := by
          rw [hiv]
          simp
        exact ((List.perm_insertionSort pairLe img).mem_iff).mp this
      · rw [if_neg h1] at h
        cases h

/-- Witness for C6: a concrete two-voxel event where the cluster tensor says
semantic type 0 but the image tensor carries 4; both output rows take the
image value 4. -/
theorem clean_full_override_witness :
    (∀ r ∈ ([((((0 : ℤ), (0 : ℤ), (0 : ℤ))), FeatRow.mk 1 0 0 4),
        ((((1 : ℤ), (1 : ℤ), (1 : ℤ))), FeatRow.mk 1 1 0 4)] :
          List (Voxel × FeatRow)),
      (r.1, r.2.sem_type) ∈ ([((((0 : ℤ), (0 : ℤ), (0 : ℤ))), (4 : ℚ)),
        ((((1 : ℤ), (1 : ℤ), (1 : ℤ))), (4 : ℚ))] : List (Voxel × ℚ))) ∧
    ∃ rows, parse_cluster3d_full
        [⟨0, 0, 0, "primary", 0, 1⟩, ⟨1, 0, 0, "compt", 11, 2⟩]
        [[(((0 : ℤ), (0 : ℤ), (0 : ℤ)), 1)], [(((1 : ℤ), (1 : ℤ), (1 : ℤ)), 1)]]
        = some rows ∧
      ([((((0 : ℤ), (0 : ℤ), (0 : ℤ))), FeatRow.mk 1 0 0 4),
        ((((1 : ℤ), (1 : ℤ), (1 : ℤ))), FeatRow.mk 1 1 0 4)] :
          List (Voxel × FeatRow)).length =
        (cleanPipeline rows [((((0 : ℤ), (0 : ℤ), (0 : ℤ))), (4 : ℚ)),
          ((((1 : ℤ), (1 : ℤ), (1 : ℤ))), (4 : ℚ))]).length ∧
      ([((((0 : ℤ), (0 : ℤ), (0 : ℤ))), FeatRow.mk 1 0 0 4),
        ((((1 : ℤ), (1 : ℤ), (1 : ℤ))), FeatRow.mk 1 1 0 4)] :
          List (Voxel × FeatRow)).map (fun r => r.1) =
        (cleanPipeline rows [((((0 : ℤ), (0 : ℤ), (0 : ℤ))), (4 : ℚ)),
          ((((1 : ℤ), (1 : ℤ), (1 : ℤ))), (4 : ℚ))]).map (fun r => r.1) :=
  clean_full_override
    [⟨0, 0, 0, "primary", 0, 1⟩, ⟨1, 0, 0, "compt", 11, 2⟩]
    [[(((0 : ℤ), (0 : ℤ), (0 : ℤ)), 1)], [(((1 : ℤ), (1 : ℤ), (1 : ℤ)), 1)]]
    [((((0 : ℤ), (0 : ℤ), (0 : ℤ))), (4 : ℚ)),
      ((((1 : ℤ), (1 : ℤ), (1 : ℤ))), (4 : ℚ))]
    [((((0 : ℤ), (0 : ℤ), (0 : ℤ))), FeatRow.mk 1 0 0 4),
      ((((1 : ℤ), (1 : ℤ), (1 : ℤ))), FeatRow.mk 1 1 0 4)]
    (by decide)
